import Mathlib

/-!
# Simulated annealing for the travelling salesman problem

A shallow embedding of `src/src/util.h`, `src/src/tsp.h` and `src/src/tsp.cpp`.

Conventions of the embedding.

* `float` values are elements of an arbitrary linearly ordered field `α`
  (exact arithmetic); `std::exp` is a parameter `expf : α → α`.
* City ids and positions are non-negative C++ `int`s and are embedded as `Nat`;
  `int` is 32 bits wide, and a signed overflow (undefined) evaluates to `none`.
* A computation that trips an `assert`, or reads or writes outside a buffer,
  evaluates to `none`.
* Standard-library routines are embedded as libstdc++ (g++ 12) implements them
  for `std::vector` iterators; in particular `std::reverse` with the first
  iterator after the last one returns without touching the vector.
* Where C++ leaves the order of evaluation of two calls unspecified, the order
  is a parameter.
* A division by the temperature 0 follows IEEE arithmetic: `-1/0.0f` is minus
  infinity and `std::exp` of it is 0.
* Random generators are oracles: an arbitrary function from the number of
  draws made so far to the value drawn.
-/

namespace TSP

variable {α : Type} [LinearOrderedField α]

/-! ## util.h : Matrix -/

/-- The class `Matrix<T>` of util.h: the storage `a` and the dimensions `m`, `n`. -/
structure Matrix (α : Type) where
  a : List α
  m : Nat
  n : Nat

/-- The constructor `Matrix(int m, int n)`: storage for `n*m` entries. The C++
storage is uninitialised; the embedding fills it with `0`. -/
def Matrix.create (m n : Nat) : Matrix α :=
  { a := List.replicate (n * m) 0, m := m, n := n }

/-- The largest value of an `int`. -/
def intMax : Int := 2 ^ 31 - 1

/-- The accessor `T operator()(int i, int j) const`: asserts
`i>=0 && i<m && j>=0 && j<n` and reads `a[m*j+i]`, the index being computed
in `int`. -/
def Matrix.get (M : Matrix α) (i j : Nat) : Option α :=
  if i < M.m ∧ j < M.n ∧ ((M.m * j + i : Nat) : Int) ≤ intMax then M.a[M.m * j + i]?
  else none

/-! ## tsp.h / tsp.cpp : TSPInstance -/

/-- The class `TSPInstance`: the city coordinates and the distance matrix. -/
structure TSPInstance (α : Type) where
  cities : List (α × α)
  distances : Matrix α

/-- The method `float dist(int i, int j) const`: `distances(i,j)`. -/
def TSPInstance.dist (inst : TSPInstance α) (i j : Nat) : Option α :=
  inst.distances.get i j

/-- The value `a - b` of two `size_t` operands with `a < 2^64`, `b = 1`:
the subtraction wraps around at zero. -/
def sizeSubOne (a : Nat) : Nat :=
  if a = 0 then 2 ^ 64 - 1 else a - 1

/-- The loop `for (size_t i = ..; i < bound; i++) result += distances(tour[i], tour[i+1]);`
of `calcTourLength`, with `remaining = bound - i` iterations left. -/
def TSPInstance.chainLoop (inst : TSPInstance α) (tour : List Nat) :
    Nat → Nat → α → Option α
  | 0, _, result => some result
  | remaining + 1, i, result =>
    match tour[i]?, tour[i + 1]? with
    | some c, some c' =>
      match inst.distances.get c c' with
      | some d => inst.chainLoop tour remaining (i + 1) (result + d)
      | none => none
    | _, _ => none

/-- The method `TSPInstance::calcTourLength` (tsp.cpp 72-86). -/
def TSPInstance.calcTourLength (inst : TSPInstance α) (tour : List Nat) : Option α :=
  if tour.length = inst.cities.length then
    match inst.chainLoop tour (sizeSubOne tour.length) 0 0 with
    | some result =>
      match tour[sizeSubOne tour.length]?, tour[0]? with
      | some c, some c' =>
        match inst.distances.get c c' with
        | some d => some (result + d)
        | none => none
      | _, _ => none
    | none => none
  else none

/-- An instance with `n` cities whose distance matrix has been allocated as
`Matrix<float>(n,n)`, the size `n*n` being an `int`. -/
def TSPInstance.Built (inst : TSPInstance α) (n : Nat) : Prop :=
  inst.cities.length = n ∧ inst.distances.m = n ∧ inst.distances.n = n ∧
    inst.distances.a.length = n * n ∧ ((n * n : Nat) : Int) ≤ intMax

/-- The entry that `dist(i,j)` reads, `0` outside the storage. -/
def TSPInstance.distD (inst : TSPInstance α) (i j : Nat) : α :=
  inst.distances.a.getD (inst.distances.m * j + i) 0

/-- The entries of `tour` are city ids of an instance with `n` cities. -/
def ValidIds (n : Nat) (tour : List Nat) : Prop :=
  ∀ c ∈ tour, c < n

/-- The cyclic length of a tour: the sum of `dist(tour[i], tour[(i+1) mod n])`. -/
def cyclicLength (inst : TSPInstance α) (tour : List Nat) : α :=
  ∑ i in Finset.range tour.length,
    inst.distD (tour.getD i 0) (tour.getD ((i + 1) % tour.length) 0)

/-! ## Standard-library routines used by the moves -/

/-- The call `std::reverse(v.begin() + first, v.begin() + last)` as libstdc++
implements it for random access iterators (`__reverse` in stl_algo.h): it
returns at once for `first == last`, otherwise it decrements `last` and swaps
`*first` and `*last` while `first < last`. So with `last <= first` nothing is
read or written and the vector is unchanged; with `first < last` the elements
at the positions `[first, last)` are reversed, which reads outside the vector
when `last > v.size()`. -/
def stdReverse (v : List Nat) (first last : Nat) : Option (List Nat) :=
  if last ≤ first then some v
  else if last ≤ v.length then
    some (v.take first ++ ((v.drop first).take (last - first)).reverse ++ v.drop last)
  else none

/-- The call `std::swap(v[i], v[j])`; `operator[]` outside the vector is undefined. -/
def stdSwap (v : List Nat) (i j : Nat) : Option (List Nat) :=
  match v[i]?, v[j]? with
  | some x, some y => some ((v.set i y).set j x)
  | _, _ => none

/-- The call `std::rotate(v.begin() + first, v.begin() + middle, v.begin() + last)`:
a left rotation of `[first, last)` that brings the element at `middle` to
`first`. Both `[first, middle)` and `[middle, last)` have to be valid ranges. -/
def stdRotate (v : List Nat) (first middle last : Nat) : Option (List Nat) :=
  if first ≤ middle ∧ middle ≤ last ∧ last ≤ v.length then
    some (v.take first ++ (v.drop middle).take (last - middle) ++
      (v.drop first).take (middle - first) ++ v.drop last)
  else none

/-- The call `std::sort(c.begin(), c.end())` on a vector of `int`. -/
def stdSort (c : List Nat) : List Nat :=
  c.insertionSort (· ≤ ·)

/-! ## tsp.h : Optimizer::MoveService and the seed moves -/

/-- The class `Optimizer::MoveService`: a generator and the distribution
`uniform_int_distribution<int>(1, numCities-1)`. The generator is an oracle:
`generator k` is the raw value behind the `k`-th draw. -/
structure MoveService where
  numCities : Nat
  generator : Nat → Nat
  calls : Nat

/-- The constructor `MoveService(int numCities)`: it stores the bounds
`(1, numCities-1)` of the distribution and returns, also when the range is
empty. -/
def MoveService.create (numCities : Nat) (generator : Nat → Nat) : MoveService :=
  { numCities := numCities, generator := generator, calls := 0 }

/-- The value of `distribution(generator)` for a non-empty range
`[1, numCities-1]`: some value of the range, and the generator advances. -/
def MoveService.draw (s : MoveService) : Nat × MoveService :=
  (1 + s.generator s.calls % (s.numCities - 1), { s with calls := s.calls + 1 })

/-- The method `MoveService::sample`: `distribution(generator)`. Drawing from
the distribution `(1, numCities-1)` requires `1 <= numCities-1`; with an empty
range the value is not a position of any tour and the call counts as
undefined. -/
def MoveService.sample (s : MoveService) : Option (Nat × MoveService) :=
  if 1 ≤ (s.numCities : Int) - 1 then some s.draw else none

/-- The interface `Optimizer::Move`: `propose` mutates the tour and draws from
the move service. -/
abbrev Move := List Nat → MoveService → Option (List Nat × MoveService)

/-- The body of `ChainReverseMove::propose` for the sampled positions
`a` (first argument of `std::reverse`) and `b` (second argument). -/
def ChainReverseMove.apply (state : List Nat) (a b : Nat) : Option (List Nat) :=
  stdReverse state a b

/-- The method `ChainReverseMove::propose` (tsp.h 333-337). The order in which
the two calls of `sample()` in the argument list are evaluated is unspecified:
with `rightToLeft` (as g++ does) the first draw is the second argument of
`std::reverse`, otherwise it is the first argument. -/
def ChainReverseMove.propose (rightToLeft : Bool) : Move := fun state service =>
  match service.sample with
  | none => none
  | some (x, s1) =>
    match s1.sample with
    | none => none
    | some (y, s2) =>
      match (if rightToLeft then ChainReverseMove.apply state y x
             else ChainReverseMove.apply state x y) with
      | some state' => some (state', s2)
      | none => none

/-- The body of `SwapCityMove::propose` for the sampled positions `a`, `b`. -/
def SwapCityMove.apply (state : List Nat) (a b : Nat) : Option (List Nat) :=
  stdSwap state a b

/-- The method `SwapCityMove::propose` (tsp.h 348-351). The two positions are
exchanged, so the order in which the two draws are evaluated makes no
difference. -/
def SwapCityMove.propose : Move := fun state service =>
  match service.sample with
  | none => none
  | some (a, s1) =>
    match s1.sample with
    | none => none
    | some (b, s2) =>
      match SwapCityMove.apply state a b with
      | some state' => some (state', s2)
      | none => none

/-- The body of `RotateCityMove::propose` for the three sampled positions:
the samples are sorted and `std::rotate` is called on `c[0]`, `c[1]`, `c[2]`. -/
def RotateCityMove.apply (state : List Nat) (s0 s1 s2 : Nat) : Option (List Nat) :=
  match stdSort [s0, s1, s2] with
  | [c0, c1, c2] => stdRotate state c0 c1 c2
  | _ => none

/-- The method `RotateCityMove::propose` (tsp.h 362-370). The three draws are
the elements of a braced list, evaluated from left to right. -/
def RotateCityMove.propose : Move := fun state service =>
  match service.sample with
  | none => none
  | some (a, s1) =>
    match s1.sample with
    | none => none
    | some (b, s2) =>
      match s2.sample with
      | none => none
      | some (c, s3) =>
        match RotateCityMove.apply state a b c with
        | some state' => some (state', s3)
        | none => none

/-! ## tsp.h / tsp.cpp : Optimizer -/

/-- The class `Optimizer::Config`. -/
structure Config (α : Type) where
  temp : α
  outer : Int
  inner : Int
  energy : α
  bestEnergy : α
  state : List Nat
  bestState : List Nat
  terminated : Bool

/-- The constructor `Config()`. -/
def Config.init : Config α :=
  { temp := 0, outer := 0, inner := 0, energy := 0, bestEnergy := 0,
    state := [], bestState := [], terminated := false }

/-- The interface `Optimizer::CoolingSchedule`. -/
structure CoolingSchedule (α : Type) where
  nextTemp : Config α → α
  initialTemp : α

/-- The class `GeometricCoolingSchedule` with the fields `iTemp`, `eTemp`, `alpha`. -/
def GeometricCoolingSchedule (iTemp eTemp alpha : α) : CoolingSchedule α :=
  { nextTemp := fun config => max (config.temp * alpha) eTemp
    initialTemp := iTemp }

/-- The class `Optimizer`. `coolingSchedule` is a pointer, null after
construction. The registered observers are represented by their number; what
they receive is recorded in the run. -/
structure Optimizer (α : Type) where
  coolingSchedule : Option (CoolingSchedule α)
  outerLoops : Int
  innerLoops : Int
  notificationCycle : Int
  observers : Nat
  moves : List Move

/-- The generator `g` of `optimize` with its two distributions, as an oracle:
`ints k` is the raw value behind `moveDist(g)` and `reals k` the value of
`uniformDist(g)` when it is the `k`-th draw from `g`. -/
structure Generator (α : Type) where
  ints : Nat → Nat
  reals : Nat → α
  calls : Nat

/-- The draw `moveDist(g)` with `moveDist(0, numMoves - 1)`. -/
def Generator.moveDist (g : Generator α) (numMoves : Nat) : Nat × Generator α :=
  (g.ints g.calls % numMoves, { g with calls := g.calls + 1 })

/-- The draw `uniformDist(g)`. -/
def Generator.uniformDist (g : Generator α) : α × Generator α :=
  (g.reals g.calls, { g with calls := g.calls + 1 })

/-- The sources of randomness of one call of `optimize`: the outcome of
`std::random_shuffle` on a range, the generator `g` and the generator of the
move service. -/
structure Randomness (α : Type) where
  shuffle : List Nat → List Nat
  gInts : Nat → Nat
  gReals : Nat → α
  sampler : Nat → Nat

/-- The local variables of `optimize` that live across loop iterations, and the
notifications made so far: a pair `(i, config)` stands for the call
`observers[i]->notify(instance, config)`. -/
structure RunState (α : Type) where
  config : Config α
  g : Generator α
  service : MoveService
  loopCounter : Int
  notified : List (Nat × Config α)

/-- The loop `for (i = 0; i < observers.size(); i++) observers[i]->notify(instance, config)`. -/
def notifyAll (observers : Nat) (config : Config α) : List (Nat × Config α) :=
  (List.range observers).map fun i => (i, config)

/-- The value of `std::exp(-1/config.temp * delta)` in the branch `delta > 0`
(tsp.cpp 172). At the temperature 0 the float quotient `-1/0.0f` is minus
infinity, its product with the positive `delta` is minus infinity again, and
`std::exp` of it is 0. -/
def acceptanceBound (expf : α → α) (temp delta : α) : α :=
  if temp = 0 then 0 else expf (-1 / temp * delta)

/-- Lines 159-177 of tsp.cpp: the acceptance of a proposal of energy `energy`.
The uniform draw is made only for `delta > 0`. -/
def accept (expf : α → α) (config : Config α) (g : Generator α)
    (proposal : List Nat) (energy : α) : Config α × Generator α :=
  let delta := energy - config.energy
  if delta ≤ 0 then
    ({ config with state := proposal, energy := energy }, g)
  else
    let (u, g') := g.uniformDist
    if u ≤ acceptanceBound expf config.temp delta then
      ({ config with state := proposal, energy := energy }, g')
    else
      (config, g')

/-- Lines 179-185 of tsp.cpp: the update of the best tour. -/
def trackBest (config : Config α) (proposal : List Nat) (energy : α) : Config α :=
  if energy < config.bestEnergy then
    { config with bestEnergy := energy, bestState := proposal }
  else config

/-- The body of the inner loop of `optimize` (tsp.cpp 150-196). The remainder
`loopCounter % notificationCycle` is undefined for a zero cycle, and
`loopCounter++` for a counter that has reached the largest `int`. -/
def Optimizer.innerBody (opt : Optimizer α) (inst : TSPInstance α) (expf : α → α)
    (st : RunState α) : Option (RunState α) :=
  let (m, g1) := st.g.moveDist opt.moves.length
  match opt.moves[m]? with
  | none => none
  | some move =>
    match move st.config.state st.service with
    | none => none
    | some (proposal, service) =>
      match inst.calcTourLength proposal with
      | none => none
      | some energy =>
        let (config1, g2) := accept expf st.config g1 proposal energy
        let config2 := trackBest config1 proposal energy
        if opt.notificationCycle = 0 ∨ intMax ≤ st.loopCounter then none
        else
          some { config := config2, g := g2, service := service,
                 loopCounter := st.loopCounter + 1,
                 notified :=
                   if st.loopCounter.tmod opt.notificationCycle = 0 then
                     st.notified ++ notifyAll opt.observers config2
                   else st.notified }

/-- The inner loop `for (config.inner = ..; config.inner < innerLoops; config.inner++)`
with `remaining` iterations left. -/
def Optimizer.innerLoop (opt : Optimizer α) (inst : TSPInstance α) (expf : α → α) :
    Nat → RunState α → Option (RunState α)
  | 0, st => some st
  | remaining + 1, st =>
    match opt.innerBody inst expf st with
    | none => none
    | some st' =>
      opt.innerLoop inst expf remaining
        { st' with config := { st'.config with inner := st'.config.inner + 1 } }

/-- The outer loop `for (config.outer = ..; config.outer < outerLoops; config.outer++)`
with `remaining` iterations left; each iteration starts its inner loop with
`config.inner = 0`. -/
def Optimizer.outerLoop (opt : Optimizer α) (inst : TSPInstance α) (expf : α → α)
    (schedule : CoolingSchedule α) : Nat → RunState α → Option (RunState α)
  | 0, st => some st
  | remaining + 1, st =>
    let config := { st.config with temp := schedule.nextTemp st.config }
    match opt.innerLoop inst expf opt.innerLoops.toNat
        { st with config := { config with inner := 0 } } with
    | none => none
    | some st' =>
      opt.outerLoop inst expf schedule remaining
        { st' with config := { st'.config with outer := st'.config.outer + 1 } }

/-- The initial tour of `optimize` for `n` cities (tsp.cpp 105-114): the
identity, of which `std::random_shuffle` has permuted all positions but the
first. -/
def initialTour (n : Nat) (rnd : Randomness α) : List Nat :=
  (List.range n).take 1 ++ rnd.shuffle ((List.range n).drop 1)

/-- The configuration of `optimize` when the initialisation is done
(tsp.cpp 102-120), for an initial energy `energy`. -/
def Optimizer.initConfig (n : Nat) (rnd : Randomness α) (energy temp : α) : Config α :=
  { (Config.init : Config α) with
    state := initialTour n rnd
    bestState := List.replicate n 0
    energy := energy
    bestEnergy := energy
    temp := temp }

/-- What a call of `optimize` leaves behind: the vector `result`, the calls of
`notify` in the order they were made, and the final configuration. -/
structure Outcome (α : Type) where
  result : List Nat
  notified : List (Nat × Config α)
  config : Config α

/-- The state at the head of the outer loop (tsp.cpp 102-141). -/
def Optimizer.initState (opt : Optimizer α) (inst : TSPInstance α)
    (rnd : Randomness α) : Option (RunState α × CoolingSchedule α) :=
  let n := inst.cities.length
  if n > 0 ∧ opt.moves.length > 0 then
    match inst.calcTourLength (initialTour n rnd) with
    | none => none
    | some energy =>
      match opt.coolingSchedule with
      | none => none
      | some schedule =>
        some ({ config := Optimizer.initConfig n rnd energy schedule.initialTemp,
                g := { ints := rnd.gInts, reals := rnd.gReals, calls := 0 },
                service := MoveService.create n rnd.sampler,
                loopCounter := 0, notified := [] }, schedule)
  else none

/-- The final notification (tsp.cpp 207-216) from the state after the loops. -/
def Optimizer.finish (opt : Optimizer α) (st : RunState α) : Outcome α :=
  let config := { st.config with terminated := true, state := st.config.bestState,
                                 energy := st.config.bestEnergy }
  { result := st.config.bestState
    notified := st.notified ++ notifyAll opt.observers config
    config := config }

/-- The method `Optimizer::optimize` (tsp.cpp 92-217). -/
def Optimizer.optimize (opt : Optimizer α) (inst : TSPInstance α) (expf : α → α)
    (rnd : Randomness α) : Option (Outcome α) :=
  match opt.initState inst rnd with
  | none => none
  | some (st, schedule) =>
    match opt.outerLoop inst expf schedule opt.outerLoops.toNat
        { st with config := { st.config with outer := 0 } } with
    | none => none
    | some st' => some (opt.finish st')


/-! ## Auxiliary notions for the statements -/

/-- The loop counters and the temperature of a state replaced. -/
def RunState.withCounters (st : RunState α) (temp : α) (outer inner : Int) : RunState α :=
  { st with config := { st.config with temp := temp, outer := outer, inner := inner } }

/-- The states that a run of the loops of `optimize` can pass through from
`st0`: `st0` itself, the state after an inner step from such a state, and such
a state with its loop counters and temperature updated by the loop heads. -/
inductive Visited (opt : Optimizer α) (inst : TSPInstance α) (expf : α → α)
    (st0 : RunState α) : RunState α → Prop
  | init : Visited opt inst expf st0 st0
  | counters (st : RunState α) (t : α) (o i : Int) :
      Visited opt inst expf st0 st → Visited opt inst expf st0 (st.withCounters t o i)
  | step (st st' : RunState α) :
      Visited opt inst expf st0 st → opt.innerBody inst expf st = some st' →
      Visited opt inst expf st0 st'

/-- The snapshots that observer `i` has received, in order. -/
def received (notified : List (Nat × Config α)) (i : Nat) : List (Config α) :=
  (notified.filter fun x => x.1 == i).map Prod.snd

/-- The best energy is at most `e0` and at most the best energy of every
snapshot notified so far, these are at most `e0`, and they are non-increasing. -/
def BestInv (e0 : α) (st : RunState α) : Prop :=
  st.config.bestEnergy ≤ e0 ∧
  (∀ x ∈ st.notified, st.config.bestEnergy ≤ x.2.bestEnergy ∧ x.2.bestEnergy ≤ e0) ∧
  (st.notified.map fun x => x.2.bestEnergy).Pairwise (· ≥ ·)

/-- The cached energy is the length of the current tour, in the state and in
every snapshot notified so far, and nothing is flagged as terminated. -/
def EnergyInv (inst : TSPInstance α) (st : RunState α) : Prop :=
  inst.calcTourLength st.config.state = some st.config.energy ∧
  st.config.terminated = false ∧
  ∀ x ∈ st.notified, x.2.terminated = false ∧
    inst.calcTourLength x.2.state = some x.2.energy

/-- A move that is defined on every tour of `n` cities with a service for `n`
cities, and yields a tour of the `n` cities again. -/
def SafeMove (n : Nat) (move : Move) : Prop :=
  ∀ state service, state.Perm (List.range n) → service.numCities = n →
    ∃ state' service', move state service = some (state', service') ∧
      state'.Perm (List.range n) ∧ service'.numCities = n

/-- The current tour is a tour of the `n` cities and the move service samples
for `n` cities. -/
def PermInv (n : Nat) (st : RunState α) : Prop :=
  st.config.state.Perm (List.range n) ∧ st.service.numCities = n

/-! ## Concrete data -/

/-- Four cities on a line at 0, 1, 3 and 6, with their distance matrix. -/
def lineInstance : TSPInstance ℚ :=
  { cities := [(0, 0), (1, 0), (3, 0), (6, 0)]
    distances := { a := [0, 1, 3, 6, 1, 0, 2, 5, 3, 2, 0, 3, 6, 5, 3, 0], m := 4, n := 4 } }

/-- A rational stand-in for `std::exp` on non-positive arguments. -/
def lineExp : ℚ → ℚ := fun x => 1 / (1 - x)

/-- The geometric schedule of main.cpp. -/
def lineSchedule : CoolingSchedule ℚ :=
  GeometricCoolingSchedule 150 (1 / 100) (95 / 100)

/-- An optimizer with the three seed moves (the arguments of `std::reverse`
evaluated from right to left), two outer and two inner loops and one observer
that is notified every second step. -/
def lineOptimizer : Optimizer ℚ :=
  { coolingSchedule := some lineSchedule
    outerLoops := 2
    innerLoops := 2
    notificationCycle := 2
    observers := 1
    moves := [ChainReverseMove.propose true, SwapCityMove.propose, RotateCityMove.propose] }

/-- A shuffle that exchanges the first two elements of the range. -/
def swapLeading : List Nat → List Nat
  | a :: b :: l => b :: a :: l
  | l => l

/-- Draws for a run on `lineInstance`: the shuffle exchanges the cities 1 and 2. -/
def lineRandomness : Randomness ℚ :=
  { shuffle := swapLeading
    gInts := fun k => k + 1
    gReals := fun _ => 1 / 2
    sampler := fun k => k }

/-- The state of the run of `lineOptimizer` on `lineInstance` with
`lineRandomness` at the head of the outer loop. -/
def lineState : RunState ℚ :=
  { config := { temp := 150, outer := 0, inner := 0, energy := 16, bestEnergy := 16,
                state := [0, 2, 1, 3], bestState := [0, 0, 0, 0], terminated := false }
    g := { ints := fun k => k + 1, reals := fun _ => 1 / 2, calls := 0 }
    service := { numCities := 4, generator := fun k => k, calls := 0 }
    loopCounter := 0
    notified := [] }

/-- Two cities at distance 1, with their distance matrix. -/
def pairInstance : TSPInstance ℚ :=
  { cities := [(0, 0), (1, 0)]
    distances := { a := [0, 1, 1, 0], m := 2, n := 2 } }

/-- The temperature after `k` calls of `nextTemp`, the first one on
`initialTemp`, as `optimize` makes them at the heads of its outer steps;
`config` supplies the fields other than `temp`. -/
def CoolingSchedule.tempAfter (s : CoolingSchedule α) (config : Config α) : Nat → α
  | 0 => s.initialTemp
  | k + 1 => s.nextTemp { config with temp := s.tempAfter config k }

/-- The states that the loops of `optimize` can be in when exactly `k` inner
steps have been made from `st0`. -/
inductive StepsFrom (opt : Optimizer α) (inst : TSPInstance α) (expf : α → α)
    (st0 : RunState α) : Nat → RunState α → Prop
  | init : StepsFrom opt inst expf st0 0 st0
  | counters (k : Nat) (st : RunState α) (t : α) (o i : Int) :
      StepsFrom opt inst expf st0 k st → StepsFrom opt inst expf st0 k (st.withCounters t o i)
  | step (k : Nat) (st st' : RunState α) :
      StepsFrom opt inst expf st0 k st → opt.innerBody inst expf st = some st' →
      StepsFrom opt inst expf st0 (k + 1) st'


/-- The optimizer `lineOptimizer` with `outerLoops` set to 0. -/
def idleOptimizer : Optimizer ℚ :=
  { lineOptimizer with outerLoops := 0 }

/-- A move service for four cities whose next two samples are 1 and 3. -/
def ascendingService : MoveService :=
  { numCities := 4, generator := fun k => 2 * k, calls := 0 }

/-- A move service for four cities whose next two samples are 3 and 1. -/
def reversedService : MoveService :=
  { numCities := 4, generator := fun k => 2 - 2 * k, calls := 0 }


/-- Only the three seed moves of tsp.h are registered, `ChainReverseMove` with
either order of evaluation of its two draws. -/
def SeedMoves (opt : Optimizer α) : Prop :=
  ∀ move ∈ opt.moves, (∃ rightToLeft, move = ChainReverseMove.propose rightToLeft) ∨
    move = SwapCityMove.propose ∨ move = RotateCityMove.propose

/-- The accessor `T& operator()(int i, int j)` as the target of an assignment:
asserts `i>=0 && i<m && j>=0 && j<n` and writes `a[m*j+i]`, the index being
computed in `int`; a write outside the storage is undefined. -/
def Matrix.set (M : Matrix α) (i j : Nat) (v : α) : Option (Matrix α) :=
  if i < M.m ∧ j < M.n ∧ ((M.m * j + i : Nat) : Int) ≤ intMax ∧ M.m * j + i < M.a.length then
    some { M with a := M.a.set (M.m * j + i) v }
  else none

/-- The method `float dist(const City & c1, const City & c2) const` (tsp.h 69-74);
`sqrtf` stands for `std::sqrt`. -/
def TSPInstance.cityDist (sqrtf : α → α) (c1 c2 : α × α) : α :=
  let temp1 := c1.1 - c2.1
  let temp2 := c1.2 - c2.2
  sqrtf (temp1 * temp1 + temp2 * temp2)

/-- The inner loop `for (int j = ..; j < n; j++)` of `calcDistanceMatrix` for row
`i`, with `remaining` iterations left. -/
def TSPInstance.fillRow (sqrtf : α → α) (cities : List (α × α)) (i : Nat) :
    Nat → Nat → Matrix α → Option (Matrix α)
  | 0, _, M => some M
  | remaining + 1, j, M =>
    match cities[i]?, cities[j]? with
    | some ci, some cj =>
      match M.set i j (TSPInstance.cityDist sqrtf ci cj) with
      | some M1 =>
        match M1.set j i (TSPInstance.cityDist sqrtf ci cj) with
        | some M2 => TSPInstance.fillRow sqrtf cities i remaining (j + 1) M2
        | none => none
      | none => none
    | _, _ => none

/-- The outer loop `for (int i = ..; i < n; i++)` of `calcDistanceMatrix`, with
`remaining` iterations left. -/
def TSPInstance.fillRows (sqrtf : α → α) (cities : List (α × α)) (n : Nat) :
    Nat → Nat → Matrix α → Option (Matrix α)
  | 0, _, M => some M
  | remaining + 1, i, M =>
    match TSPInstance.fillRow sqrtf cities i (n - i) i M with
    | some M' => TSPInstance.fillRows sqrtf cities n remaining (i + 1) M'
    | none => none

/-- The method `TSPInstance::calcDistanceMatrix` (tsp.cpp 53-70). The matrix
`Matrix<float>(n,n)` computes its size `n*m` in `int`. -/
def TSPInstance.calcDistanceMatrix (sqrtf : α → α) (inst : TSPInstance α) :
    Option (TSPInstance α) :=
  let n := inst.cities.length
  if ((n * n : Nat) : Int) ≤ intMax then
    match TSPInstance.fillRows sqrtf inst.cities n n 0 (Matrix.create n n) with
    | some M => some { inst with distances := M }
    | none => none
  else none

/-- A default-constructed `TSPInstance` after `addCity` has been called with
each element of `cities`: the matrix is still `Matrix()`. -/
def TSPInstance.ofCities (cities : List (α × α)) : TSPInstance α :=
  { cities := cities, distances := { a := [], m := 0, n := 0 } }

/-- The corners (0,0), (0,1), (1,1), (1,0) of the unit square. -/
def unitSquare : List (α × α) :=
  [(0, 0), (0, 1), (1, 1), (1, 0)]

/-- A matrix with the dimensions and the storage of `Matrix<float>(n,n)`. -/
def MatShape (n : Nat) (M : Matrix α) : Prop :=
  M.m = n ∧ M.n = n ∧ M.a.length = n * n

/-- The entry `a[m*j+i]` of a matrix, `0` outside the storage. -/
def Matrix.entry (M : Matrix α) (i j : Nat) : α :=
  M.a.getD (M.m * j + i) 0

/-- The distance that `calcDistanceMatrix` computes for the cities at the
positions `r` and `c` of `cities`. -/
def pairDist (sqrtf : α → α) (cities : List (α × α)) (r c : Nat) : α :=
  TSPInstance.cityDist sqrtf (cities.getD r (0, 0)) (cities.getD c (0, 0))

/-! ## Theorems -/

theorem matrix_get_of_built (inst : TSPInstance α) (n c c' : Nat) (hb : inst.Built n)
    (hc : c < n) (hc' : c' < n) : inst.distances.get c c' = some (inst.distD c c') := by
  obtain ⟨-, hm, hn, ha, hmax⟩ := hb
  have hidx : n * c' + c < n * n := by
    calc n * c' + c < n * c' + n := by omega
      _ = n * (c' + 1) := by ring
      _ ≤ n * n := Nat.mul_le_mul_left n hc'
  have hlt : n * c' + c < inst.distances.a.length := by rw [ha]; exact hidx
  have hint : ((n * c' + c : Nat) : Int) ≤ intMax := by
    have : ((n * c' + c : Nat) : Int) ≤ ((n * n : Nat) : Int) := by exact_mod_cast hidx.le
    exact le_trans this hmax
  simp only [Matrix.get, TSPInstance.distD, hm, hn]
  rw [if_pos ⟨hc, hc', hint⟩, List.getD_eq_getElem?_getD, List.getElem?_eq_getElem hlt]
  rfl

theorem getElem?_eq_getD_of_lt (tour : List Nat) (i : Nat) (h : i < tour.length) :
    tour[i]? = some (tour.getD i 0) := by
  simp [List.getD_eq_getElem?_getD, List.getElem?_eq_getElem h]

theorem getD_lt_of_valid (n : Nat) (tour : List Nat) (hv : ValidIds n tour) (i : Nat)
    (h : i < tour.length) : tour.getD i 0 < n := by
  have : tour.getD i 0 = tour[i] := by
    simp [List.getD_eq_getElem?_getD, List.getElem?_eq_getElem h]
  rw [this]
  exact hv _ (List.getElem_mem h)

theorem chainLoop_eq (inst : TSPInstance α) (n : Nat) (tour : List Nat) (hb : inst.Built n)
    (hv : ValidIds n tour) :
    ∀ (remaining i : Nat) (result : α), i + remaining + 1 ≤ tour.length →
      inst.chainLoop tour remaining i result =
        some (result + ∑ k in Finset.range remaining,
          inst.distD (tour.getD (i + k) 0) (tour.getD (i + k + 1) 0)) := by
  intro remaining
  induction remaining with
  | zero => intro i result _; simp [TSPInstance.chainLoop]
  | succ r ih =>
    intro i result h
    have h1 : i < tour.length := by omega
    have h2 : i + 1 < tour.length := by omega
    rw [TSPInstance.chainLoop, getElem?_eq_getD_of_lt tour i h1,
      getElem?_eq_getD_of_lt tour (i + 1) h2]
    simp only
    rw [matrix_get_of_built inst n _ _ hb (getD_lt_of_valid n tour hv i h1)
      (getD_lt_of_valid n tour hv (i + 1) h2)]
    simp only
    rw [ih (i + 1) _ (by omega), Finset.sum_range_succ']
    congr 1
    have : ∀ k, i + 1 + k = i + (k + 1) := by intro k; omega
    simp only [this, add_zero]
    ring

theorem calcTourLength_eq (inst : TSPInstance α) (n : Nat) (tour : List Nat)
    (hb : inst.Built n) (hn : 1 ≤ n) (hlen : tour.length = n) (hv : ValidIds n tour) :
    inst.calcTourLength tour = some (cyclicLength inst tour) := by
  have hc : inst.cities.length = n := hb.1
  have hs : sizeSubOne tour.length = n - 1 := by
    simp [sizeSubOne, hlen]; omega
  rw [TSPInstance.calcTourLength, if_pos (by rw [hlen, hc]), hs,
    chainLoop_eq inst n tour hb hv (n - 1) 0 0 (by omega)]
  simp only
  rw [getElem?_eq_getD_of_lt tour (n - 1) (by omega), getElem?_eq_getD_of_lt tour 0 (by omega)]
  simp only
  rw [matrix_get_of_built inst n _ _ hb (getD_lt_of_valid n tour hv _ (by omega))
    (getD_lt_of_valid n tour hv _ (by omega))]
  simp only [zero_add, Option.some.injEq, cyclicLength, hlen]
  obtain ⟨k, rfl⟩ : ∃ k, n = k + 1 := ⟨n - 1, by omega⟩
  rw [Finset.sum_range_succ]
  simp only [Nat.add_sub_cancel, Nat.mod_self]
  congr 1
  apply Finset.sum_congr rfl
  intro i hi
  rw [Finset.mem_range] at hi
  rw [Nat.mod_eq_of_lt (by omega)]

theorem getD_rotate (tour : List Nat) (k i : Nat) (h : i < tour.length) :
    (tour.rotate k).getD i 0 = tour.getD ((i + k) % tour.length) 0 := by
  simp [List.getD_eq_getElem?_getD, List.getElem?_rotate h]

theorem sum_shift_mod (g : Nat → α) (n : Nat) :
    ∑ i in Finset.range n, g ((i + 1) % n) = ∑ i in Finset.range n, g i := by
  cases n with
  | zero => simp
  | succ m =>
    rw [Finset.sum_range_succ, Finset.sum_range_succ']
    simp only [Nat.mod_self]
    congr 1
    apply Finset.sum_congr rfl
    intro i hi
    rw [Finset.mem_range] at hi
    rw [Nat.mod_eq_of_lt (by omega)]

theorem cyclicLength_rotate_one (inst : TSPInstance α) (tour : List Nat) :
    cyclicLength inst (tour.rotate 1) = cyclicLength inst tour := by
  unfold cyclicLength
  rw [List.length_rotate]
  rw [← sum_shift_mod (fun i => inst.distD (tour.getD i 0) (tour.getD ((i + 1) % tour.length) 0))]
  apply Finset.sum_congr rfl
  intro i hi
  rw [Finset.mem_range] at hi
  have hpos : 0 < tour.length := by omega
  rw [getD_rotate tour 1 i hi, getD_rotate tour 1 _ (Nat.mod_lt _ hpos)]

theorem cyclicLength_rotate (inst : TSPInstance α) (tour : List Nat) (k : Nat) :
    cyclicLength inst (tour.rotate k) = cyclicLength inst tour := by
  induction k with
  | zero => simp
  | succ k ih => rw [← List.rotate_rotate, cyclicLength_rotate_one, ih]

theorem validIds_rotate (n : Nat) (tour : List Nat) (k : Nat) (hv : ValidIds n tour) :
    ValidIds n (tour.rotate k) := by
  intro c hc
  exact hv c (List.mem_rotate.mp hc)

/-- C9. For an instance built for `n >= 1` cities and a tour of length `n` over
city ids below `n`, every matrix access of `TSPInstance::calcTourLength` is in
bounds and the result is the sum over `i < n` of `dist(tour[i], tour[(i+1) mod n])`
(the chain and the closing edge); for `n = 1` this is `dist(0,0)`. -/
theorem calcTourLength_cyclic_sum (inst : TSPInstance α) (n : Nat) (tour : List Nat)
    (hb : inst.Built n) (hn : 1 ≤ n) (hlen : tour.length = n) (hv : ValidIds n tour) :
    (∀ i, i < n → inst.dist (tour.getD i 0) (tour.getD ((i + 1) % n) 0) =
        some (inst.distD (tour.getD i 0) (tour.getD ((i + 1) % n) 0))) ∧
    inst.calcTourLength tour =
      some (∑ i in Finset.range n, inst.distD (tour.getD i 0) (tour.getD ((i + 1) % n) 0)) ∧
    (n = 1 → inst.calcTourLength tour = inst.dist 0 0) := by
  have hmain := calcTourLength_eq inst n tour hb hn hlen hv
  refine ⟨?_, ?_, ?_⟩
  · intro i hi
    exact matrix_get_of_built inst n _ _ hb (getD_lt_of_valid n tour hv i (by omega))
      (getD_lt_of_valid n tour hv _ (by rw [hlen]; exact Nat.mod_lt _ hn))
  · rw [hmain, cyclicLength, hlen]
  · intro h1
    subst h1
    have h0 : tour.getD 0 0 = 0 := by
      have := getD_lt_of_valid 1 tour hv 0 (by omega)
      omega
    rw [hmain, cyclicLength, hlen, TSPInstance.dist,
      matrix_get_of_built inst 1 0 0 hb (by omega) (by omega)]
    have h0' : tour[0]?.getD 0 = 0 := by simpa [List.getD_eq_getElem?_getD] using h0
    simp [h0']

/-- C10. For an instance built for `n` cities and a tour of length `n` over city
ids below `n`, `TSPInstance::calcTourLength` gives the same value for the tour
and for each of its cyclic rotations (and for `n >= 1` that value is the cyclic
length). -/
theorem calcTourLength_rotate (inst : TSPInstance α) (n : Nat) (tour : List Nat) (k : Nat)
    (hb : inst.Built n) (hlen : tour.length = n) (hv : ValidIds n tour) :
    inst.calcTourLength (tour.rotate k) = inst.calcTourLength tour ∧
    (1 ≤ n → inst.calcTourLength tour = some (cyclicLength inst tour)) := by
  refine ⟨?_, fun hn => calcTourLength_eq inst n tour hb hn hlen hv⟩
  rcases Nat.eq_zero_or_pos n with h0 | hpos
  · subst h0
    have : tour = [] := List.length_eq_zero.mp hlen
    subst this
    simp
  · rw [calcTourLength_eq inst n tour hb hpos hlen hv,
      calcTourLength_eq inst n (tour.rotate k) hb hpos (by rw [List.length_rotate, hlen])
        (validIds_rotate n tour k hv),
      cyclicLength_rotate]

theorem split_three (v : List Nat) (a b : Nat) (hab : a ≤ b) :
    v = v.take a ++ (v.drop a).take (b - a) ++ v.drop b := by
  have h1 : v.drop b = (v.drop a).drop (b - a) := by
    rw [List.drop_drop]; congr 1; omega
  rw [h1, List.append_assoc, List.take_append_drop, List.take_append_drop]

theorem stdReverse_perm (v v' : List Nat) (a b : Nat) (h : stdReverse v a b = some v') :
    v'.Perm v := by
  unfold stdReverse at h
  split at h
  · injection h with h
    subst h
    exact List.Perm.refl _
  · rename_i hlt
    split at h
    · injection h with h
      subst h
      have hv := split_three v a b (by omega)
      conv => rhs; rw [hv]
      exact (List.Perm.append_right _ (List.Perm.append_left _ (List.reverse_perm _)))
    · exact absurd h (by simp)

theorem stdReverse_isSome (v : List Nat) (a b : Nat) (hb : b ≤ v.length) :
    ∃ v', stdReverse v a b = some v' := by
  by_cases h : b ≤ a
  · simp [stdReverse, h]
  · simp [stdReverse, h, hb]

theorem set_set_swap_perm (v : List Nat) (i j : Nat) (hi : i < v.length) (hj : j < v.length) :
    ((v.set i v[j]).set j v[i]).Perm v := by
  rw [List.perm_iff_count]
  intro c
  have hj' : j < (v.set i v[j]).length := by rw [List.length_set]; exact hj
  rw [List.count_set _ _ _ _ hj', List.count_set _ _ _ _ hi]
  have hget : (v.set i v[j])[j] = v[j] := by
    rw [List.getElem_set]
    split <;> rfl
  rw [hget]
  have hA : (if (v[i] == c) = true then 1 else 0) ≤ v.count c := by
    by_cases h : v[i] = c
    · subst h
      simp
    · simp [h]
  omega

theorem stdSwap_perm (v v' : List Nat) (a b : Nat) (h : stdSwap v a b = some v') :
    v'.Perm v := by
  unfold stdSwap at h
  split at h
  · rename_i x y hx hy
    injection h with h
    subst h
    obtain ⟨ha, rfl⟩ := List.getElem?_eq_some.mp hx
    obtain ⟨hb, rfl⟩ := List.getElem?_eq_some.mp hy
    exact set_set_swap_perm v a b ha hb
  · exact absurd h (by simp)

theorem stdSwap_isSome (v : List Nat) (a b : Nat) (ha : a < v.length) (hb : b < v.length) :
    ∃ v', stdSwap v a b = some v' := by
  simp [stdSwap, List.getElem?_eq_getElem ha, List.getElem?_eq_getElem hb]

theorem stdRotate_perm (v v' : List Nat) (a m b : Nat) (h : stdRotate v a m b = some v') :
    v'.Perm v := by
  unfold stdRotate at h
  split at h
  · rename_i hc
    injection h with h
    subst h
    have hv : v = v.take a ++ ((v.drop a).take (m - a) ++ (v.drop m).take (b - m)) ++ v.drop b := by
      have h1 := split_three v a m hc.1
      have h2 := split_three (v.drop m) 0 (b - m) (Nat.zero_le _)
      simp only [List.take_zero, List.drop_zero, List.nil_append, Nat.sub_zero, List.drop_drop] at h2
      have h3 : m + (b - m) = b := by omega
      rw [h3] at h2
      conv => lhs; rw [h1, h2]
      simp [List.append_assoc]
    conv => rhs; rw [hv]
    simp only [List.append_assoc]
    apply List.Perm.append_left
    rw [← List.append_assoc, ← List.append_assoc]
    exact List.Perm.append_right _ List.perm_append_comm
  · exact absurd h (by simp)

theorem stdRotate_isSome (v : List Nat) (a m b : Nat) (h1 : a ≤ m) (h2 : m ≤ b)
    (h3 : b ≤ v.length) : ∃ v', stdRotate v a m b = some v' := by
  simp [stdRotate, h1, h2, h3]

theorem draw_range (s : MoveService) (h : 2 ≤ s.numCities) :
    1 ≤ s.draw.1 ∧ s.draw.1 ≤ s.numCities - 1 ∧ s.draw.2.numCities = s.numCities := by
  have hpos : 0 < s.numCities - 1 := by omega
  have := Nat.mod_lt (s.generator s.calls) hpos
  refine ⟨?_, ?_, rfl⟩
  · show 1 ≤ 1 + s.generator s.calls % (s.numCities - 1)
    omega
  · show 1 + s.generator s.calls % (s.numCities - 1) ≤ s.numCities - 1
    omega

theorem draw_numCities (s : MoveService) : s.draw.2.numCities = s.numCities := rfl

/-- For at least two cities `sample()` returns a draw from `[1, numCities-1]`. -/
theorem sample_eq (s : MoveService) (h : 2 ≤ s.numCities) : s.sample = some s.draw := by
  have h1 : (1 : Int) ≤ (s.numCities : Int) - 1 := by omega
  simp [MoveService.sample, h1]

/-- For a single city the range `[1, 0]` of `sample()` is empty. -/
theorem sample_none (s : MoveService) (h : s.numCities ≤ 1) : s.sample = none := by
  have h1 : ¬ (1 : Int) ≤ (s.numCities : Int) - 1 := by omega
  simp [MoveService.sample, h1]

theorem chainReverse_propose_apply (rightToLeft : Bool) (state : List Nat)
    (service : MoveService) (h : 2 ≤ service.numCities) :
    ChainReverseMove.propose rightToLeft state service =
      (if rightToLeft then
          ChainReverseMove.apply state service.draw.2.draw.1 service.draw.1
        else ChainReverseMove.apply state service.draw.1 service.draw.2.draw.1).map
        fun state' => (state', service.draw.2.draw.2) := by
  have h1 := sample_eq service h
  have h2 := sample_eq service.draw.2 h
  simp only [ChainReverseMove.propose, h1, h2]
  split <;> rename_i hh <;> simp [hh]

theorem swapCity_propose_apply (state : List Nat) (service : MoveService)
    (h : 2 ≤ service.numCities) :
    SwapCityMove.propose state service =
      (SwapCityMove.apply state service.draw.1 service.draw.2.draw.1).map
        fun state' => (state', service.draw.2.draw.2) := by
  have h1 := sample_eq service h
  have h2 := sample_eq service.draw.2 h
  simp only [SwapCityMove.propose, h1, h2]
  split <;> rename_i hh <;> simp [hh]

theorem rotateCity_propose_apply (state : List Nat) (service : MoveService)
    (h : 2 ≤ service.numCities) :
    RotateCityMove.propose state service =
      (RotateCityMove.apply state service.draw.1 service.draw.2.draw.1
        service.draw.2.draw.2.draw.1).map
        fun state' => (state', service.draw.2.draw.2.draw.2) := by
  have h1 := sample_eq service h
  have h2 := sample_eq service.draw.2 h
  have h3 := sample_eq service.draw.2.draw.2 h
  simp only [RotateCityMove.propose, h1, h2, h3]
  split <;> rename_i hh <;> simp [hh]

theorem stdSort_three (s0 s1 s2 : Nat) :
    ∃ c0 c1 c2, stdSort [s0, s1, s2] = [c0, c1, c2] ∧ c0 ≤ c1 ∧ c1 ≤ c2 ∧
      [c0, c1, c2].Perm [s0, s1, s2] := by
  have hp : (stdSort [s0, s1, s2]).Perm [s0, s1, s2] := List.perm_insertionSort _ _
  have hs : (stdSort [s0, s1, s2]).Sorted (· ≤ ·) := List.sorted_insertionSort _ _
  have hl : (stdSort [s0, s1, s2]).length = 3 := by simpa using hp.length_eq
  match hm : stdSort [s0, s1, s2], hl with
  | [c0, c1, c2], _ =>
    rw [hm] at hp hs
    refine ⟨c0, c1, c2, rfl, ?_, ?_, hp⟩
    · exact List.rel_of_sorted_cons hs c1 (by simp)
    · exact List.rel_of_sorted_cons hs.of_cons c2 (by simp)

theorem chainReverse_apply_perm (state state' : List Nat) (a b : Nat)
    (h : ChainReverseMove.apply state a b = some state') : state'.Perm state :=
  stdReverse_perm state state' a b h

theorem swapCity_apply_perm (state state' : List Nat) (a b : Nat)
    (h : SwapCityMove.apply state a b = some state') : state'.Perm state :=
  stdSwap_perm state state' a b h

theorem rotateCity_apply_perm (state state' : List Nat) (s0 s1 s2 : Nat)
    (h : RotateCityMove.apply state s0 s1 s2 = some state') : state'.Perm state := by
  obtain ⟨c0, c1, c2, hsort, -, -, -⟩ := stdSort_three s0 s1 s2
  simp only [RotateCityMove.apply, hsort] at h
  exact stdRotate_perm state state' c0 c1 c2 h

theorem swapCity_apply_isSome (state : List Nat) (a b : Nat)
    (ha : a < state.length) (hb : b < state.length) :
    ∃ state', SwapCityMove.apply state a b = some state' :=
  stdSwap_isSome state a b ha hb

theorem rotateCity_apply_isSome (state : List Nat) (s0 s1 s2 : Nat)
    (h0 : s0 ≤ state.length) (h1 : s1 ≤ state.length) (h2 : s2 ≤ state.length) :
    ∃ state', RotateCityMove.apply state s0 s1 s2 = some state' := by
  obtain ⟨c0, c1, c2, hsort, h01, h12, hp⟩ := stdSort_three s0 s1 s2
  have hc2 : c2 ∈ [s0, s1, s2] := hp.subset (by simp)
  have hle : c2 ≤ state.length := by
    simp only [List.mem_cons, List.mem_singleton, List.not_mem_nil, or_false] at hc2
    rcases hc2 with h | h | h <;> omega
  simp only [RotateCityMove.apply, hsort]
  exact stdRotate_isSome state c0 c1 c2 h01 h12 hle

theorem chainReverse_apply_isSome (state : List Nat) (a b : Nat)
    (hb : b ≤ state.length) :
    ∃ state', ChainReverseMove.apply state a b = some state' :=
  stdReverse_isSome state a b hb

/-- With the first argument not before the second one, `std::reverse` leaves
the tour as it is. -/
theorem chainReverse_apply_descending (state : List Nat) (a b : Nat) (hab : b ≤ a) :
    ChainReverseMove.apply state a b = some state := by
  simp [ChainReverseMove.apply, stdReverse, hab]

theorem accept_bestEnergy (expf : α → α) (config : Config α) (g : Generator α)
    (proposal : List Nat) (energy : α) :
    (accept expf config g proposal energy).1.bestEnergy = config.bestEnergy ∧
    (accept expf config g proposal energy).1.bestState = config.bestState ∧
    (accept expf config g proposal energy).1.terminated = config.terminated ∧
    (accept expf config g proposal energy).1.temp = config.temp := by
  unfold accept
  simp only [Generator.uniformDist]
  split_ifs <;> exact ⟨rfl, rfl, rfl, rfl⟩

/-- The bound of the acceptance test, with the exponent written as
`-delta / temp`. -/
theorem acceptanceBound_eq (expf : α → α) (temp delta : α) :
    acceptanceBound expf temp delta = if temp = 0 then 0 else expf (-delta / temp) := by
  have harg : -1 / temp * delta = -delta / temp := by ring
  rw [acceptanceBound, harg]

theorem accept_cases (expf : α → α) (config : Config α) (g : Generator α)
    (proposal : List Nat) (energy : α) :
    ((energy - config.energy ≤ 0 ∨
        g.uniformDist.1 ≤ (if config.temp = 0 then 0
          else expf (-(energy - config.energy) / config.temp))) →
      (accept expf config g proposal energy).1.state = proposal ∧
      (accept expf config g proposal energy).1.energy = energy) ∧
    (¬ (energy - config.energy ≤ 0 ∨
        g.uniformDist.1 ≤ (if config.temp = 0 then 0
          else expf (-(energy - config.energy) / config.temp))) →
      (accept expf config g proposal energy).1.state = config.state ∧
      (accept expf config g proposal energy).1.energy = config.energy) := by
  unfold accept
  dsimp only [Generator.uniformDist]
  rw [acceptanceBound_eq]
  by_cases h1 : energy - config.energy ≤ 0
  · rw [if_pos h1]
    exact ⟨fun _ => ⟨rfl, rfl⟩, fun hn => absurd (Or.inl h1) hn⟩
  · rw [if_neg h1]
    by_cases h2 : g.reals g.calls ≤ (if config.temp = 0 then 0
        else expf (-(energy - config.energy) / config.temp))
    · rw [if_pos h2]
      exact ⟨fun _ => ⟨rfl, rfl⟩, fun hn => absurd (Or.inr h2) hn⟩
    · rw [if_neg h2]
      exact ⟨fun hc => hc.elim (fun h => absurd h h1) (fun h => absurd h h2),
        fun _ => ⟨rfl, rfl⟩⟩

/-- The acceptance either installs the proposal and its energy or leaves the
current tour and energy as they are. -/
theorem accept_either (expf : α → α) (config : Config α) (g : Generator α)
    (proposal : List Nat) (energy : α) :
    ((accept expf config g proposal energy).1.state = proposal ∧
      (accept expf config g proposal energy).1.energy = energy) ∨
    ((accept expf config g proposal energy).1.state = config.state ∧
      (accept expf config g proposal energy).1.energy = config.energy) := by
  have ha := accept_cases expf config g proposal energy
  by_cases hc : energy - config.energy ≤ 0 ∨
      g.uniformDist.1 ≤ (if config.temp = 0 then 0
        else expf (-(energy - config.energy) / config.temp))
  · exact Or.inl (ha.1 hc)
  · exact Or.inr (ha.2 hc)

theorem trackBest_state (config : Config α) (proposal : List Nat) (energy : α) :
    (trackBest config proposal energy).state = config.state ∧
    (trackBest config proposal energy).energy = config.energy ∧
    (trackBest config proposal energy).terminated = config.terminated ∧
    (trackBest config proposal energy).temp = config.temp := by
  unfold trackBest
  split_ifs <;> exact ⟨rfl, rfl, rfl, rfl⟩

/-- What one inner step does, once the move and the energy of the proposal are known. -/
theorem innerBody_eq (opt : Optimizer α) (inst : TSPInstance α) (expf : α → α)
    (st : RunState α) (move : Move) (proposal : List Nat) (service : MoveService) (energy : α)
    (hmove : opt.moves[(st.g.moveDist opt.moves.length).1]? = some move)
    (hprop : move st.config.state st.service = some (proposal, service))
    (hlen : inst.calcTourLength proposal = some energy)
    (hcycle : opt.notificationCycle ≠ 0) (hcount : st.loopCounter < intMax) :
    opt.innerBody inst expf st = some
      { config := trackBest (accept expf st.config (st.g.moveDist opt.moves.length).2
          proposal energy).1 proposal energy
        g := (accept expf st.config (st.g.moveDist opt.moves.length).2 proposal energy).2
        service := service
        loopCounter := st.loopCounter + 1
        notified :=
          if st.loopCounter.tmod opt.notificationCycle = 0 then
            st.notified ++ notifyAll opt.observers
              (trackBest (accept expf st.config (st.g.moveDist opt.moves.length).2
                proposal energy).1 proposal energy)
          else st.notified } := by
  unfold Optimizer.innerBody
  have hnot : ¬ (opt.notificationCycle = 0 ∨ intMax ≤ st.loopCounter) := by
    rintro (h | h)
    · exact hcycle h
    · exact absurd hcount (not_lt.mpr h)
  simp only [hmove, hprop, hlen, if_neg hnot]

/-- An inner step that completes has drawn a move, obtained a proposal from it
and measured the proposal. -/
theorem innerBody_some (opt : Optimizer α) (inst : TSPInstance α) (expf : α → α)
    (st st' : RunState α) (h : opt.innerBody inst expf st = some st') :
    ∃ move proposal service energy,
      opt.moves[(st.g.moveDist opt.moves.length).1]? = some move ∧
      move st.config.state st.service = some (proposal, service) ∧
      inst.calcTourLength proposal = some energy ∧
      opt.notificationCycle ≠ 0 ∧ st.loopCounter < intMax := by
  unfold Optimizer.innerBody at h
  simp only at h
  split at h
  · exact absurd h (by simp)
  · rename_i move hmove
    split at h
    · exact absurd h (by simp)
    · rename_i proposal service hprop
      split at h
      · exact absurd h (by simp)
      · rename_i energy hlen
        split at h
        · exact absurd h (by simp)
        · rename_i hnot
          exact ⟨move, proposal, service, energy, hmove, hprop, hlen,
            fun h0 => hnot (Or.inl h0), not_le.mp fun hle => hnot (Or.inr hle)⟩

theorem lineState_move :
    lineOptimizer.moves[(lineState.g.moveDist lineOptimizer.moves.length).1]? =
      some SwapCityMove.propose := rfl

theorem lineState_proposal :
    SwapCityMove.propose lineState.config.state lineState.service =
      some ([0, 1, 2, 3], { numCities := 4, generator := fun k => k, calls := 2 }) := rfl

theorem lineInstance_length_identity : lineInstance.calcTourLength [0, 1, 2, 3] = some 12 := by
  norm_num [lineInstance, TSPInstance.calcTourLength, TSPInstance.chainLoop, sizeSubOne,
    Matrix.get, intMax]

theorem innerLoop_inv (opt : Optimizer α) (inst : TSPInstance α) (expf : α → α)
    (P : RunState α → Prop)
    (hframe : ∀ st t o i, P st → P (st.withCounters t o i))
    (hbody : ∀ st st', P st → opt.innerBody inst expf st = some st' → P st') :
    ∀ (remaining : Nat) (st st' : RunState α), P st →
      opt.innerLoop inst expf remaining st = some st' → P st' := by
  intro remaining
  induction remaining with
  | zero =>
    intro st st' hP h
    simp only [Optimizer.innerLoop, Option.some.injEq] at h
    exact h ▸ hP
  | succ r ih =>
    intro st st' hP h
    rw [Optimizer.innerLoop] at h
    split at h
    · exact absurd h (by simp)
    · rename_i st1 hst1
      exact ih _ st' (hframe st1 st1.config.temp st1.config.outer (st1.config.inner + 1)
        (hbody st st1 hP hst1)) h

theorem outerLoop_inv (opt : Optimizer α) (inst : TSPInstance α) (expf : α → α)
    (schedule : CoolingSchedule α) (P : RunState α → Prop)
    (hframe : ∀ st t o i, P st → P (st.withCounters t o i))
    (hbody : ∀ st st', P st → opt.innerBody inst expf st = some st' → P st') :
    ∀ (remaining : Nat) (st st' : RunState α), P st →
      opt.outerLoop inst expf schedule remaining st = some st' → P st' := by
  intro remaining
  induction remaining with
  | zero =>
    intro st st' hP h
    simp only [Optimizer.outerLoop, Option.some.injEq] at h
    exact h ▸ hP
  | succ r ih =>
    intro st st' hP h
    rw [Optimizer.outerLoop] at h
    simp only at h
    split at h
    · exact absurd h (by simp)
    · rename_i st1 hst1
      have h1 : P st1 :=
        innerLoop_inv opt inst expf P hframe hbody _ _ st1
          (hframe st (schedule.nextTemp st.config) st.config.outer 0 hP) hst1
      exact ih _ st' (hframe st1 st1.config.temp (st1.config.outer + 1) st1.config.inner h1) h

/-- A completed call of `optimize` is the final notification applied to a state
that the loops reach from the initial state. -/
theorem optimize_some (opt : Optimizer α) (inst : TSPInstance α) (expf : α → α)
    (rnd : Randomness α) (out : Outcome α) (h : opt.optimize inst expf rnd = some out) :
    ∃ st0 schedule st',
      opt.initState inst rnd = some (st0, schedule) ∧
      opt.outerLoop inst expf schedule opt.outerLoops.toNat
        (st0.withCounters st0.config.temp 0 st0.config.inner) = some st' ∧
      out = opt.finish st' := by
  unfold Optimizer.optimize at h
  split at h
  · exact absurd h (by simp)
  · rename_i st0 schedule hinit
    split at h
    · exact absurd h (by simp)
    · rename_i st' hloop
      simp only [Option.some.injEq] at h
      exact ⟨st0, schedule, st', hinit, hloop, h.symm⟩

/-- The state that the initialisation of a call of `optimize` leaves. -/
theorem initState_some (opt : Optimizer α) (inst : TSPInstance α) (rnd : Randomness α)
    (st0 : RunState α) (schedule : CoolingSchedule α)
    (h : opt.initState inst rnd = some (st0, schedule)) :
    ∃ energy,
      inst.calcTourLength (initialTour inst.cities.length rnd) = some energy ∧
      st0.config = Optimizer.initConfig inst.cities.length rnd energy schedule.initialTemp ∧
      st0.notified = [] ∧ st0.loopCounter = 0 ∧
      0 < inst.cities.length ∧ 0 < opt.moves.length ∧
      opt.coolingSchedule = some schedule ∧
      st0.service = MoveService.create inst.cities.length rnd.sampler := by
  unfold Optimizer.initState at h
  simp only at h
  split at h
  · rename_i hpre
    split at h
    · exact absurd h (by simp)
    · rename_i energy henergy
      split at h
      · exact absurd h (by simp)
      · rename_i sch hsch
        simp only [Option.some.injEq, Prod.mk.injEq] at h
        obtain ⟨h1, h2⟩ := h
        subst h1 h2
        exact ⟨energy, henergy, rfl, rfl, rfl, hpre.1, hpre.2, hsch, rfl⟩
  · exact absurd h (by simp)

theorem outerLoop_visited (opt : Optimizer α) (inst : TSPInstance α) (expf : α → α)
    (schedule : CoolingSchedule α) (remaining : Nat) (st0 st' : RunState α) (t : α) (o i : Int)
    (h : opt.outerLoop inst expf schedule remaining (st0.withCounters t o i) = some st') :
    Visited opt inst expf st0 st' :=
  outerLoop_inv opt inst expf schedule (Visited opt inst expf st0)
    (fun st t o i hv => Visited.counters st t o i hv)
    (fun st st' hv hs => Visited.step st st' hv hs) remaining _ st'
    (Visited.counters st0 t o i Visited.init) h

theorem visited_inv (opt : Optimizer α) (inst : TSPInstance α) (expf : α → α)
    (st0 : RunState α) (P : RunState α → Prop) (h0 : P st0)
    (hframe : ∀ st t o i, P st → P (st.withCounters t o i))
    (hbody : ∀ st st', P st → opt.innerBody inst expf st = some st' → P st') :
    ∀ st, Visited opt inst expf st0 st → P st := by
  intro st hv
  induction hv with
  | init => exact h0
  | counters st t o i _ ih => exact hframe st t o i ih
  | step st st' _ hs ih => exact hbody st st' ih hs

theorem trackBest_cases (config : Config α) (proposal : List Nat) (energy : α) :
    (energy < config.bestEnergy →
      (trackBest config proposal energy).bestState = proposal ∧
      (trackBest config proposal energy).bestEnergy = energy) ∧
    (¬ energy < config.bestEnergy →
      (trackBest config proposal energy).bestState = config.bestState ∧
      (trackBest config proposal energy).bestEnergy = config.bestEnergy) := by
  unfold trackBest
  by_cases h : energy < config.bestEnergy
  · rw [if_pos h]
    exact ⟨fun _ => ⟨rfl, rfl⟩, fun hn => absurd h hn⟩
  · rw [if_neg h]
    exact ⟨fun hp => absurd hp h, fun _ => ⟨rfl, rfl⟩⟩

theorem trackBest_le (config : Config α) (proposal : List Nat) (energy : α) :
    (trackBest config proposal energy).bestEnergy ≤ config.bestEnergy := by
  by_cases h : energy < config.bestEnergy
  · rw [((trackBest_cases config proposal energy).1 h).2]
    exact le_of_lt h
  · rw [((trackBest_cases config proposal energy).2 h).2]

/-- C4. In an inner step of `Optimizer::optimize` whose move yields `proposal` of
length `energy`, whatever the acceptance decides: if `energy < bestEnergy` then
afterwards `bestState = proposal` and `bestEnergy = energy`; otherwise
`bestState` and `bestEnergy` are unchanged. -/
theorem innerBody_tracks_best (opt : Optimizer α) (inst : TSPInstance α) (expf : α → α)
    (st : RunState α) (move : Move) (proposal : List Nat) (service : MoveService) (energy : α)
    (hmove : opt.moves[(st.g.moveDist opt.moves.length).1]? = some move)
    (hprop : move st.config.state st.service = some (proposal, service))
    (hlen : inst.calcTourLength proposal = some energy)
    (hcycle : opt.notificationCycle ≠ 0) (hcount : st.loopCounter < intMax) :
    ∃ st', opt.innerBody inst expf st = some st' ∧
      (energy < st.config.bestEnergy →
        st'.config.bestState = proposal ∧ st'.config.bestEnergy = energy) ∧
      (¬ energy < st.config.bestEnergy →
        st'.config.bestState = st.config.bestState ∧
          st'.config.bestEnergy = st.config.bestEnergy) := by
  have ha := accept_bestEnergy expf st.config (st.g.moveDist opt.moves.length).2 proposal energy
  have ht := trackBest_cases (accept expf st.config (st.g.moveDist opt.moves.length).2
    proposal energy).1 proposal energy
  rw [ha.1, ha.2.1] at ht
  exact ⟨_, innerBody_eq opt inst expf st move proposal service energy hmove hprop hlen hcycle
      hcount,
    ht.1, ht.2⟩

/-- Witness for C4: the swap of positions 1 and 2 in the tour 0, 2, 1, 3 on the line. -/
theorem innerBody_tracks_best_witness :
    ∃ st', lineOptimizer.innerBody lineInstance lineExp lineState = some st' ∧
      ((12 : ℚ) < lineState.config.bestEnergy →
        st'.config.bestState = [0, 1, 2, 3] ∧ st'.config.bestEnergy = 12) ∧
      (¬ (12 : ℚ) < lineState.config.bestEnergy →
        st'.config.bestState = lineState.config.bestState ∧
          st'.config.bestEnergy = lineState.config.bestEnergy) :=
  innerBody_tracks_best lineOptimizer lineInstance lineExp lineState SwapCityMove.propose
    [0, 1, 2, 3] { numCities := 4, generator := fun k => k, calls := 2 } 12
    lineState_move lineState_proposal lineInstance_length_identity (by decide) (by decide)

/-- The effect of an inner step on the configuration and on the notifications. -/
theorem innerBody_effect (opt : Optimizer α) (inst : TSPInstance α) (expf : α → α)
    (st st' : RunState α) (h : opt.innerBody inst expf st = some st') :
    ∃ proposal energy g,
      inst.calcTourLength proposal = some energy ∧
      st'.config = trackBest (accept expf st.config g proposal energy).1 proposal energy ∧
      (st'.notified = st.notified ∨
        st'.notified = st.notified ++ notifyAll opt.observers st'.config) := by
  obtain ⟨move, proposal, service, energy, hmove, hprop, hlen, hcycle, hcount⟩ :=
    innerBody_some opt inst expf st st' h
  rw [innerBody_eq opt inst expf st move proposal service energy hmove hprop hlen hcycle
    hcount] at h
  simp only [Option.some.injEq] at h
  subst h
  refine ⟨proposal, energy, (st.g.moveDist opt.moves.length).2, hlen, rfl, ?_⟩
  by_cases hc : st.loopCounter.tmod opt.notificationCycle = 0
  · right; simp only [if_pos hc]
  · left; simp only [if_neg hc]

theorem innerBody_bestEnergy_le (opt : Optimizer α) (inst : TSPInstance α) (expf : α → α)
    (st st' : RunState α) (h : opt.innerBody inst expf st = some st') :
    st'.config.bestEnergy ≤ st.config.bestEnergy := by
  obtain ⟨proposal, energy, g, -, hcfg, -⟩ := innerBody_effect opt inst expf st st' h
  rw [hcfg]
  calc (trackBest (accept expf st.config g proposal energy).1 proposal energy).bestEnergy
      ≤ (accept expf st.config g proposal energy).1.bestEnergy := trackBest_le _ _ _
    _ = st.config.bestEnergy := (accept_bestEnergy expf st.config g proposal energy).1

theorem mem_notifyAll {β : Type} (observers : Nat) (config : Config β) (x : Nat × Config β)
    (hx : x ∈ notifyAll observers config) : x.2 = config := by
  simp only [notifyAll, List.mem_map, List.mem_range] at hx
  obtain ⟨i, -, rfl⟩ := hx
  rfl

theorem bestInv_step (opt : Optimizer α) (inst : TSPInstance α) (expf : α → α) (e0 : α)
    (st st' : RunState α) (hP : BestInv e0 st) (h : opt.innerBody inst expf st = some st') :
    BestInv e0 st' := by
  have hle := innerBody_bestEnergy_le opt inst expf st st' h
  obtain ⟨proposal, energy, g, -, -, hn⟩ := innerBody_effect opt inst expf st st' h
  obtain ⟨h1, h2, h3⟩ := hP
  rcases hn with hn | hn
  · rw [BestInv, hn]
    exact ⟨le_trans hle h1, fun x hx => ⟨le_trans hle (h2 x hx).1, (h2 x hx).2⟩, h3⟩
  · rw [BestInv, hn]
    refine ⟨le_trans hle h1, ?_, ?_⟩
    · intro x hx
      rcases List.mem_append.mp hx with hx | hx
      · exact ⟨le_trans hle (h2 x hx).1, (h2 x hx).2⟩
      · rw [mem_notifyAll _ _ x hx]
        exact ⟨le_refl _, le_trans hle h1⟩
    · rw [List.map_append, List.pairwise_append]
      refine ⟨h3, ?_, ?_⟩
      · rw [List.pairwise_map]
        apply List.Pairwise.imp_of_mem _ (List.pairwise_of_forall (fun _ _ => trivial) :
          (notifyAll opt.observers st'.config).Pairwise fun _ _ => True)
        intro a b ha hb _
        rw [mem_notifyAll _ _ a ha, mem_notifyAll _ _ b hb]
      · intro a ha b hb
        obtain ⟨x, hx, rfl⟩ := List.mem_map.mp ha
        obtain ⟨y, hy, rfl⟩ := List.mem_map.mp hb
        rw [mem_notifyAll _ _ y hy]
        exact le_trans hle (h2 x hx).1

theorem energyInv_step (opt : Optimizer α) (inst : TSPInstance α) (expf : α → α)
    (st st' : RunState α) (hP : EnergyInv inst st)
    (h : opt.innerBody inst expf st = some st') : EnergyInv inst st' := by
  obtain ⟨proposal, energy, g, hlen, hcfg, hn⟩ := innerBody_effect opt inst expf st st' h
  obtain ⟨h1, h2, h3⟩ := hP
  have ht := trackBest_state (accept expf st.config g proposal energy).1 proposal energy
  have ha := accept_cases expf st.config g proposal energy
  have hterm : st'.config.terminated = false := by
    rw [hcfg, ht.2.2.1, (accept_bestEnergy expf st.config g proposal energy).2.2.1, h2]
  have hcur : inst.calcTourLength st'.config.state = some st'.config.energy := by
    rw [hcfg, ht.1, ht.2.1]
    rcases accept_either expf st.config g proposal energy with hc | hc
    · rw [hc.1, hc.2, hlen]
    · rw [hc.1, hc.2, h1]
  refine ⟨hcur, hterm, ?_⟩
  rcases hn with hn | hn
  · rw [hn]; exact h3
  · rw [hn]
    intro x hx
    rcases List.mem_append.mp hx with hx | hx
    · exact h3 x hx
    · rw [mem_notifyAll _ _ x hx]
      exact ⟨hterm, hcur⟩

theorem initState_energyInv (opt : Optimizer α) (inst : TSPInstance α) (rnd : Randomness α)
    (st0 : RunState α) (schedule : CoolingSchedule α)
    (hinit : opt.initState inst rnd = some (st0, schedule)) :
    EnergyInv inst st0 ∧ BestInv st0.config.energy st0 ∧
      inst.calcTourLength (initialTour inst.cities.length rnd) = some st0.config.energy := by
  obtain ⟨energy, henergy, hcfg, hnot, -⟩ := initState_some opt inst rnd st0 schedule hinit
  refine ⟨⟨?_, ?_, ?_⟩, ⟨?_, ?_, ?_⟩, ?_⟩
  · rw [hcfg]; exact henergy
  · rw [hcfg]; rfl
  · rw [hnot]; intro x hx; exact absurd hx (List.not_mem_nil x)
  · rw [hcfg]; exact le_refl _
  · rw [hnot]; intro x hx; exact absurd hx (List.not_mem_nil x)
  · rw [hnot]; exact List.Pairwise.nil
  · rw [hcfg]; exact henergy

/-- C5. For a call of `Optimizer::optimize` that has finished its initialisation:
no inner step increases `bestEnergy`; in every state the loops pass through,
`bestEnergy` is at most the energy of the initial shuffled tour; and when the
call completes, the `bestEnergy` values of the successive notifications are
non-increasing and that of the final snapshot is at most the initial energy. -/
theorem bestEnergy_nonincreasing (opt : Optimizer α) (inst : TSPInstance α) (expf : α → α)
    (rnd : Randomness α) (st0 : RunState α) (schedule : CoolingSchedule α)
    (hinit : opt.initState inst rnd = some (st0, schedule)) :
    inst.calcTourLength (initialTour inst.cities.length rnd) = some st0.config.energy ∧
    (∀ st st', opt.innerBody inst expf st = some st' →
      st'.config.bestEnergy ≤ st.config.bestEnergy) ∧
    (∀ st, Visited opt inst expf st0 st → st.config.bestEnergy ≤ st0.config.energy) ∧
    (∀ out, opt.optimize inst expf rnd = some out →
      (out.notified.map fun x => x.2.bestEnergy).Pairwise (· ≥ ·) ∧
      out.config.bestEnergy ≤ st0.config.energy ∧
      ∀ x ∈ out.notified, x.2.bestEnergy ≤ st0.config.energy) := by
  obtain ⟨-, hbest, hlen⟩ := initState_energyInv opt inst rnd st0 schedule hinit
  have hvis : ∀ st, Visited opt inst expf st0 st → BestInv st0.config.energy st :=
    visited_inv opt inst expf st0 (BestInv st0.config.energy) hbest
      (fun _ _ _ _ h => h) (bestInv_step opt inst expf st0.config.energy)
  refine ⟨hlen, innerBody_bestEnergy_le opt inst expf, fun st hv => (hvis st hv).1, ?_⟩
  intro out hout
  obtain ⟨st1, sch1, st', hinit', hloop, rfl⟩ := optimize_some opt inst expf rnd out hout
  rw [hinit] at hinit'
  simp only [Option.some.injEq, Prod.mk.injEq] at hinit'
  obtain ⟨rfl, rfl⟩ := hinit'
  obtain ⟨h1, h2, h3⟩ := hvis st' (outerLoop_visited opt inst expf schedule _ st0 st' _ _ _ hloop)
  have hfin : ∀ x ∈ notifyAll opt.observers (opt.finish st').config,
      x.2.bestEnergy = st'.config.bestEnergy := by
    intro x hx
    rw [mem_notifyAll _ _ x hx]
    rfl
  refine ⟨?_, h1, ?_⟩
  · show ((st'.notified ++ notifyAll opt.observers (opt.finish st').config).map
      fun x => x.2.bestEnergy).Pairwise (· ≥ ·)
    rw [List.map_append, List.pairwise_append]
    refine ⟨h3, ?_, ?_⟩
    · rw [List.pairwise_map]
      apply List.Pairwise.imp_of_mem _ (List.pairwise_of_forall (fun _ _ => trivial) :
        (notifyAll opt.observers (opt.finish st').config).Pairwise fun _ _ => True)
      intro a b ha hb _
      rw [hfin a ha, hfin b hb]
    · intro a ha b hb
      obtain ⟨x, hx, rfl⟩ := List.mem_map.mp ha
      obtain ⟨y, hy, rfl⟩ := List.mem_map.mp hb
      rw [hfin y hy]
      exact (h2 x hx).1
  · intro x hx
    rcases List.mem_append.mp hx with hx | hx
    · exact (h2 x hx).2
    · rw [hfin x hx]; exact h1

theorem lineInit :
    lineOptimizer.initState lineInstance lineRandomness = some (lineState, lineSchedule) := by
  norm_num [Optimizer.initState, lineOptimizer, lineInstance, lineRandomness, lineState,
    TSPInstance.calcTourLength, TSPInstance.chainLoop, sizeSubOne, Matrix.get, intMax,
    MoveService.create, Optimizer.initConfig, Config.init, List.range, List.range.loop,
    lineSchedule, GeometricCoolingSchedule, List.replicate, swapLeading, initialTour]

theorem lineRun : ∃ out, lineOptimizer.optimize lineInstance lineExp lineRandomness = some out := by
  rw [← Option.isSome_iff_exists, Optimizer.optimize, lineInit]
  norm_num [Optimizer.outerLoop, Optimizer.innerLoop, Optimizer.innerBody, lineOptimizer,
    lineInstance, lineRandomness, lineState, TSPInstance.calcTourLength,
    TSPInstance.chainLoop, sizeSubOne, Matrix.get, intMax, lineSchedule, GeometricCoolingSchedule,
    accept, acceptanceBound, trackBest, Generator.moveDist, Generator.uniformDist,
    SwapCityMove.propose, RotateCityMove.propose, ChainReverseMove.propose, SwapCityMove.apply,
    RotateCityMove.apply, ChainReverseMove.apply, stdSwap, stdRotate, stdReverse,
    stdSort, MoveService.sample, MoveService.draw, lineExp, notifyAll, Optimizer.finish]

/-- Witness for C5: the run of `lineOptimizer` on the four cities on a line. -/
theorem bestEnergy_nonincreasing_witness :
    lineOptimizer.initState lineInstance lineRandomness = some (lineState, lineSchedule) ∧
    (∃ out, lineOptimizer.optimize lineInstance lineExp lineRandomness = some out) ∧
    lineInstance.calcTourLength (initialTour lineInstance.cities.length lineRandomness) =
      some lineState.config.energy ∧
    (∀ st st', lineOptimizer.innerBody lineInstance lineExp st = some st' →
      st'.config.bestEnergy ≤ st.config.bestEnergy) ∧
    (∀ st, Visited lineOptimizer lineInstance lineExp lineState st →
      st.config.bestEnergy ≤ lineState.config.energy) ∧
    (∀ out, lineOptimizer.optimize lineInstance lineExp lineRandomness = some out →
      (out.notified.map fun x => x.2.bestEnergy).Pairwise (· ≥ ·) ∧
      out.config.bestEnergy ≤ lineState.config.energy ∧
      ∀ x ∈ out.notified, x.2.bestEnergy ≤ lineState.config.energy) :=
  ⟨lineInit, lineRun,
    bestEnergy_nonincreasing lineOptimizer lineInstance lineExp lineRandomness lineState
      lineSchedule lineInit⟩

/-- C6. For a call of `Optimizer::optimize` that has finished its initialisation:
in the initial state and in every state the loops pass through (after every
inner step, whatever was drawn and decided), `config.energy` is
`calcTourLength(config.state)`; the same holds in every non-terminal snapshot
that a completed call has pushed to the observers. -/
theorem energy_cache_invariant (opt : Optimizer α) (inst : TSPInstance α) (expf : α → α)
    (rnd : Randomness α) (st0 : RunState α) (schedule : CoolingSchedule α)
    (hinit : opt.initState inst rnd = some (st0, schedule)) :
    inst.calcTourLength st0.config.state = some st0.config.energy ∧
    (∀ st st', inst.calcTourLength st.config.state = some st.config.energy →
      opt.innerBody inst expf st = some st' →
      inst.calcTourLength st'.config.state = some st'.config.energy) ∧
    (∀ st, Visited opt inst expf st0 st →
      inst.calcTourLength st.config.state = some st.config.energy) ∧
    (∀ out, opt.optimize inst expf rnd = some out →
      ∀ x ∈ out.notified, x.2.terminated = false →
        inst.calcTourLength x.2.state = some x.2.energy) := by
  obtain ⟨henergy, -, -⟩ := initState_energyInv opt inst rnd st0 schedule hinit
  have hvis : ∀ st, Visited opt inst expf st0 st → EnergyInv inst st :=
    visited_inv opt inst expf st0 (EnergyInv inst) henergy
      (fun _ _ _ _ h => h) (energyInv_step opt inst expf)
  refine ⟨henergy.1, ?_, fun st hv => (hvis st hv).1, ?_⟩
  · intro st st' hst hstep
    obtain ⟨proposal, energy, g, hlen, hcfg, -⟩ := innerBody_effect opt inst expf st st' hstep
    have ht := trackBest_state (accept expf st.config g proposal energy).1 proposal energy
    have ha := accept_cases expf st.config g proposal energy
    rw [hcfg, ht.1, ht.2.1]
    rcases accept_either expf st.config g proposal energy with hc | hc
    · rw [hc.1, hc.2, hlen]
    · rw [hc.1, hc.2, hst]
  · intro out hout x hx hterm
    obtain ⟨st1, sch1, st', hinit', hloop, rfl⟩ := optimize_some opt inst expf rnd out hout
    rw [hinit] at hinit'
    simp only [Option.some.injEq, Prod.mk.injEq] at hinit'
    obtain ⟨rfl, rfl⟩ := hinit'
    obtain ⟨-, -, h3⟩ := hvis st' (outerLoop_visited opt inst expf schedule _ st0 st' _ _ _ hloop)
    rcases List.mem_append.mp hx with hx | hx
    · exact (h3 x hx).2
    · rw [mem_notifyAll _ _ x hx] at hterm
      exact absurd hterm (by simp [Optimizer.finish])

/-- Witness for C6: the run of `lineOptimizer` on the four cities on a line. -/
theorem energy_cache_invariant_witness :
    lineOptimizer.initState lineInstance lineRandomness = some (lineState, lineSchedule) ∧
    (∃ out, lineOptimizer.optimize lineInstance lineExp lineRandomness = some out) ∧
    lineInstance.calcTourLength lineState.config.state = some lineState.config.energy ∧
    (∀ st st', lineInstance.calcTourLength st.config.state = some st.config.energy →
      lineOptimizer.innerBody lineInstance lineExp st = some st' →
      lineInstance.calcTourLength st'.config.state = some st'.config.energy) ∧
    (∀ st, Visited lineOptimizer lineInstance lineExp lineState st →
      lineInstance.calcTourLength st.config.state = some st.config.energy) ∧
    (∀ out, lineOptimizer.optimize lineInstance lineExp lineRandomness = some out →
      ∀ x ∈ out.notified, x.2.terminated = false →
        lineInstance.calcTourLength x.2.state = some x.2.energy) :=
  ⟨lineInit, lineRun,
    energy_cache_invariant lineOptimizer lineInstance lineExp lineRandomness lineState
      lineSchedule lineInit⟩

theorem received_append {β : Type} (l₁ l₂ : List (Nat × Config β)) (i : Nat) :
    received (l₁ ++ l₂) i = received l₁ i ++ received l₂ i := by
  simp [received, List.filter_append]

theorem received_notifyAll {β : Type} (observers i : Nat) (config : Config β) :
    received (notifyAll observers config) i = if i < observers then [config] else [] := by
  induction observers with
  | zero => simp [received, notifyAll]
  | succ k ih =>
    have hsplit : notifyAll (k + 1) config = notifyAll k config ++ [(k, config)] := by
      simp [notifyAll, List.range_succ]
    rw [hsplit, received_append, ih]
    by_cases h1 : i < k
    · have h2 : ¬ k = i := by omega
      have h3 : i < k + 1 := by omega
      simp [received, h1, h2, h3]
    · by_cases h2 : k = i
      · subst h2
        simp [received]
      · have h3 : ¬ i < k + 1 := by omega
        simp [received, h1, h2, h3]

theorem mem_received {β : Type} (l : List (Nat × Config β)) (i : Nat) (c : Config β)
    (h : c ∈ received l i) : ∃ x ∈ l, x.2 = c := by
  simp only [received, List.mem_map, List.mem_filter] at h
  obtain ⟨x, ⟨hx, -⟩, rfl⟩ := h
  exact ⟨x, hx, rfl⟩

/-- C8. When a call of `Optimizer::optimize` completes, let `st'` be the state in
which its loops ended. Then `result` is the `bestState` of `st'`; the
notifications are those made during the loops, all with `terminated = false`,
followed by one final notification per observer; the final snapshot has
`terminated = true`, its `state` and `energy` are the `bestState` and the
`bestEnergy` of `st'`, which it also carries as `bestState` and `bestEnergy`;
and every registered observer has received a sequence of snapshots that ends
with the final one, which is the only one with `terminated = true`. -/
theorem final_notification (opt : Optimizer α) (inst : TSPInstance α) (expf : α → α)
    (rnd : Randomness α) (out : Outcome α) (h : opt.optimize inst expf rnd = some out) :
    ∃ st0 schedule st',
      opt.initState inst rnd = some (st0, schedule) ∧
      opt.outerLoop inst expf schedule opt.outerLoops.toNat
        (st0.withCounters st0.config.temp 0 st0.config.inner) = some st' ∧
      out.result = st'.config.bestState ∧
      out.config.terminated = true ∧
      out.config.state = st'.config.bestState ∧
      out.config.energy = st'.config.bestEnergy ∧
      out.config.bestState = st'.config.bestState ∧
      out.config.bestEnergy = st'.config.bestEnergy ∧
      out.config.state = out.config.bestState ∧
      out.config.energy = out.config.bestEnergy ∧
      out.result = out.config.bestState ∧
      out.notified = st'.notified ++ (List.range opt.observers).map (fun i => (i, out.config)) ∧
      (∀ x ∈ st'.notified, x.2.terminated = false) ∧
      ∀ i, i < opt.observers →
        ∃ earlier, received out.notified i = earlier ++ [out.config] ∧
          earlier = received st'.notified i ∧
          ∀ c ∈ earlier, c.terminated = false := by
  obtain ⟨st0, schedule, st', hinit, hloop, rfl⟩ := optimize_some opt inst expf rnd out h
  obtain ⟨henergy, -, -⟩ := initState_energyInv opt inst rnd st0 schedule hinit
  have hvis : EnergyInv inst st' :=
    visited_inv opt inst expf st0 (EnergyInv inst) henergy
      (fun _ _ _ _ h => h) (energyInv_step opt inst expf) st'
      (outerLoop_visited opt inst expf schedule _ st0 st' _ _ _ hloop)
  refine ⟨st0, schedule, st', hinit, hloop, rfl, rfl, rfl, rfl, rfl, rfl, rfl, rfl, rfl, rfl,
    fun x hx => (hvis.2.2 x hx).1, ?_⟩
  intro i hi
  refine ⟨received st'.notified i, ?_, rfl, ?_⟩
  · show received (st'.notified ++ notifyAll opt.observers (opt.finish st').config) i = _
    rw [received_append, received_notifyAll, if_pos hi]
  · intro c hc
    obtain ⟨x, hx, rfl⟩ := mem_received st'.notified i c hc
    exact (hvis.2.2 x hx).1

/-- Witness for C8: the run of `lineOptimizer` on the four cities on a line. -/
theorem final_notification_witness :
    ∃ out, lineOptimizer.optimize lineInstance lineExp lineRandomness = some out ∧
      ∃ st0 schedule st',
        lineOptimizer.initState lineInstance lineRandomness = some (st0, schedule) ∧
        lineOptimizer.outerLoop lineInstance lineExp schedule lineOptimizer.outerLoops.toNat
          (st0.withCounters st0.config.temp 0 st0.config.inner) = some st' ∧
        out.result = st'.config.bestState ∧
        out.config.terminated = true ∧
        out.config.state = st'.config.bestState ∧
        out.config.energy = st'.config.bestEnergy ∧
        out.config.bestState = st'.config.bestState ∧
        out.config.bestEnergy = st'.config.bestEnergy ∧
        out.config.state = out.config.bestState ∧
        out.config.energy = out.config.bestEnergy ∧
        out.result = out.config.bestState ∧
        out.notified = st'.notified ++
          (List.range lineOptimizer.observers).map (fun i => (i, out.config)) ∧
        (∀ x ∈ st'.notified, x.2.terminated = false) ∧
        ∀ i, i < lineOptimizer.observers →
          ∃ earlier, received out.notified i = earlier ++ [out.config] ∧
            earlier = received st'.notified i ∧
            ∀ c ∈ earlier, c.terminated = false :=
  lineRun.elim fun out hout =>
    ⟨out, hout, final_notification lineOptimizer lineInstance lineExp lineRandomness out hout⟩

theorem lineInstance_built : lineInstance.Built 4 := by
  simp [TSPInstance.Built, lineInstance, intMax]

/-- Witness for C9: the tour 0, 2, 1, 3 on the four cities on a line. -/
theorem calcTourLength_cyclic_sum_witness :
    (∀ i, i < 4 → lineInstance.dist ([0, 2, 1, 3].getD i 0) ([0, 2, 1, 3].getD ((i + 1) % 4) 0) =
        some (lineInstance.distD ([0, 2, 1, 3].getD i 0) ([0, 2, 1, 3].getD ((i + 1) % 4) 0))) ∧
    lineInstance.calcTourLength [0, 2, 1, 3] =
      some (∑ i in Finset.range 4,
        lineInstance.distD ([0, 2, 1, 3].getD i 0) ([0, 2, 1, 3].getD ((i + 1) % 4) 0)) ∧
    (4 = 1 → lineInstance.calcTourLength [0, 2, 1, 3] = lineInstance.dist 0 0) :=
  calcTourLength_cyclic_sum lineInstance 4 [0, 2, 1, 3] lineInstance_built (by decide) rfl
    (by simp [ValidIds])

/-- Witness for C10: the tour 0, 2, 1, 3 on the line rotated by three positions. -/
theorem calcTourLength_rotate_witness :
    lineInstance.calcTourLength ([0, 2, 1, 3].rotate 3) =
      lineInstance.calcTourLength [0, 2, 1, 3] ∧
    (1 ≤ 4 → lineInstance.calcTourLength [0, 2, 1, 3] =
      some (cyclicLength lineInstance [0, 2, 1, 3])) :=
  calcTourLength_rotate lineInstance 4 [0, 2, 1, 3] 3 lineInstance_built rfl
    (by simp [ValidIds])

/-- After the initialisation of `optimize`, `bestState` is the vector of `n`
zeros that `resize` produced, and `bestEnergy` is the energy of the initial tour. -/
theorem initState_bestState (opt : Optimizer α) (inst : TSPInstance α) (rnd : Randomness α)
    (st0 : RunState α) (schedule : CoolingSchedule α)
    (hinit : opt.initState inst rnd = some (st0, schedule)) :
    st0.config.state = initialTour inst.cities.length rnd ∧
    st0.config.bestState = List.replicate inst.cities.length 0 ∧
    st0.config.bestEnergy = st0.config.energy := by
  obtain ⟨energy, -, hcfg, -⟩ := initState_some opt inst rnd st0 schedule hinit
  rw [hcfg]
  exact ⟨rfl, rfl, rfl⟩

/-- C7, at an input where it fails: on the four cities on a line the
initialisation of `optimize` leaves the shuffled tour 0, 2, 1, 3 in `state` and
four zeros in `bestState`, while `bestEnergy` is set to `energy`. -/
theorem initState_bestState_differs :
    ∃ st0, lineOptimizer.initState lineInstance lineRandomness = some (st0, lineSchedule) ∧
      st0.config.state = [0, 2, 1, 3] ∧ st0.config.bestState = [0, 0, 0, 0] ∧
      st0.config.bestState ≠ st0.config.state ∧
      st0.config.bestEnergy = st0.config.energy :=
  ⟨lineState, lineInit, rfl, rfl, by decide, rfl⟩

theorem pairInit :
    lineOptimizer.initState pairInstance lineRandomness =
      some ({ lineState with
              config := { lineState.config with
                state := [0, 1], bestState := [0, 0], energy := 2, bestEnergy := 2 }
              service := { lineState.service with numCities := 2 } }, lineSchedule) := by
  norm_num [Optimizer.initState, lineOptimizer, pairInstance, lineRandomness, lineState,
    TSPInstance.calcTourLength, TSPInstance.chainLoop, sizeSubOne, Matrix.get, intMax,
    MoveService.create, Optimizer.initConfig, Config.init, List.range, List.range.loop,
    lineSchedule, GeometricCoolingSchedule, List.replicate, swapLeading, initialTour]

theorem pairRun :
    (lineOptimizer.optimize pairInstance lineExp lineRandomness).map
      (fun out => out.result) = some [0, 0] := by
  rw [Optimizer.optimize, pairInit]
  norm_num [Optimizer.outerLoop, Optimizer.innerLoop, Optimizer.innerBody, lineOptimizer,
    pairInstance, lineRandomness, lineState, TSPInstance.calcTourLength,
    TSPInstance.chainLoop, sizeSubOne, Matrix.get, intMax, lineSchedule, GeometricCoolingSchedule,
    accept, acceptanceBound, trackBest, Generator.moveDist, Generator.uniformDist,
    SwapCityMove.propose, RotateCityMove.propose, ChainReverseMove.propose, SwapCityMove.apply,
    RotateCityMove.apply, ChainReverseMove.apply, stdSwap, stdRotate, stdReverse, stdSort,
    MoveService.sample, MoveService.draw, lineExp, notifyAll, Optimizer.finish]

/-- C1, at an input where it fails: on two cities the run of `lineOptimizer`
(three seed moves, 2 x 2 loops) completes and writes 0, 0 to `result`, which is
not a permutation of 0, 1. -/
theorem optimize_result_not_permutation :
    ∃ out, lineOptimizer.optimize pairInstance lineExp lineRandomness = some out ∧
      out.result = [0, 0] ∧ ¬ out.result.Perm (List.range 2) := by
  obtain ⟨out, hout, hres⟩ := Option.map_eq_some'.mp pairRun
  refine ⟨out, hout, hres, ?_⟩
  rw [hres]
  decide

theorem perm_range_valid (n : Nat) (tour : List Nat) (h : tour.Perm (List.range n)) :
    tour.length = n ∧ ValidIds n tour := by
  refine ⟨by rw [h.length_eq, List.length_range], ?_⟩
  intro c hc
  exact List.mem_range.mp (h.subset hc)

theorem swapCity_safe (n : Nat) (hn : 2 ≤ n) : SafeMove n SwapCityMove.propose := by
  intro state service hperm hsvc
  have hlen : state.length = n := (perm_range_valid n state hperm).1
  obtain ⟨ha1, ha2, ha3⟩ := draw_range service (by omega)
  obtain ⟨hb1, hb2, hb3⟩ := draw_range service.draw.2 (by omega)
  obtain ⟨state', hs⟩ := swapCity_apply_isSome state service.draw.1
    service.draw.2.draw.1 (by omega) (by omega)
  refine ⟨state', service.draw.2.draw.2, ?_, ?_, by omega⟩
  · rw [swapCity_propose_apply state service (by omega), hs]
    rfl
  · exact (swapCity_apply_perm state state' _ _ hs).trans hperm

theorem rotateCity_safe (n : Nat) (hn : 2 ≤ n) : SafeMove n RotateCityMove.propose := by
  intro state service hperm hsvc
  have hlen : state.length = n := (perm_range_valid n state hperm).1
  obtain ⟨ha1, ha2, ha3⟩ := draw_range service (by omega)
  obtain ⟨hb1, hb2, hb3⟩ := draw_range service.draw.2 (by omega)
  obtain ⟨hc1, hc2, hc3⟩ := draw_range service.draw.2.draw.2 (by omega)
  obtain ⟨state', hs⟩ := rotateCity_apply_isSome state service.draw.1
    service.draw.2.draw.1 service.draw.2.draw.2.draw.1
    (by omega) (by omega) (by omega)
  refine ⟨state', service.draw.2.draw.2.draw.2, ?_, ?_, by omega⟩
  · rw [rotateCity_propose_apply state service (by omega), hs]
    rfl
  · exact (rotateCity_apply_perm state state' _ _ _ hs).trans hperm

/-- Whatever the order of its two draws, `ChainReverseMove::propose` is defined
on every tour of `n >= 2` cities and yields a tour of the `n` cities. -/
theorem chainReverse_safe (rightToLeft : Bool) (n : Nat) (hn : 2 ≤ n) :
    SafeMove n (ChainReverseMove.propose rightToLeft) := by
  intro state service hperm hsvc
  have hlen : state.length = n := (perm_range_valid n state hperm).1
  obtain ⟨ha1, ha2, ha3⟩ := draw_range service (by omega)
  obtain ⟨hb1, hb2, hb3⟩ := draw_range service.draw.2 (by omega)
  rw [chainReverse_propose_apply rightToLeft state service (by omega)]
  cases rightToLeft with
  | false =>
    obtain ⟨state', hs⟩ := chainReverse_apply_isSome state service.draw.1
      service.draw.2.draw.1 (by omega)
    refine ⟨state', service.draw.2.draw.2, ?_, ?_, by omega⟩
    · simp [hs]
    · exact (chainReverse_apply_perm state state' _ _ hs).trans hperm
  | true =>
    obtain ⟨state', hs⟩ := chainReverse_apply_isSome state service.draw.2.draw.1
      service.draw.1 (by omega)
    refine ⟨state', service.draw.2.draw.2, ?_, ?_, by omega⟩
    · simp [hs]
    · exact (chainReverse_apply_perm state state' _ _ hs).trans hperm

/-- C2. For every tour that is a permutation of `0..n-1` with `n >= 2` and all
sampled positions in `[1, n-1]`, in either order and also coincident, each of
`ChainReverseMove::propose`, `SwapCityMove::propose` and
`RotateCityMove::propose` is defined, which in the embedding says that it
neither reads nor writes outside the vector, and leaves a tour of length `n`
that is a permutation of `0..n-1`. The same holds for the three methods drawing
their positions from any move service for `n` cities. -/
theorem seed_moves_keep_permutation (state : List Nat) (n a b c : Nat) (hn : 2 ≤ n)
    (hperm : state.Perm (List.range n)) (ha : 1 ≤ a ∧ a ≤ n - 1) (hb : 1 ≤ b ∧ b ≤ n - 1)
    (hc : 1 ≤ c ∧ c ≤ n - 1) :
    (∃ state', ChainReverseMove.apply state a b = some state' ∧ state'.length = n ∧
      state'.Perm (List.range n)) ∧
    (∃ state', SwapCityMove.apply state a b = some state' ∧ state'.length = n ∧
      state'.Perm (List.range n)) ∧
    (∃ state', RotateCityMove.apply state a b c = some state' ∧ state'.length = n ∧
      state'.Perm (List.range n)) ∧
    (∀ (service : MoveService) (move : Move), service.numCities = n →
      ((∃ rightToLeft, move = ChainReverseMove.propose rightToLeft) ∨
        move = SwapCityMove.propose ∨ move = RotateCityMove.propose) →
      ∃ state' service', move state service = some (state', service') ∧
        state'.length = n ∧ state'.Perm (List.range n)) := by
  have hlen : state.length = n := (perm_range_valid n state hperm).1
  refine ⟨?_, ?_, ?_, ?_⟩
  · obtain ⟨state', hs⟩ := chainReverse_apply_isSome state a b (by omega)
    have hp := (chainReverse_apply_perm state state' a b hs).trans hperm
    exact ⟨state', hs, (perm_range_valid n state' hp).1, hp⟩
  · obtain ⟨state', hs⟩ := swapCity_apply_isSome state a b (by omega) (by omega)
    have hp := (swapCity_apply_perm state state' a b hs).trans hperm
    exact ⟨state', hs, (perm_range_valid n state' hp).1, hp⟩
  · obtain ⟨state', hs⟩ := rotateCity_apply_isSome state a b c (by omega) (by omega)
      (by omega)
    have hp := (rotateCity_apply_perm state state' a b c hs).trans hperm
    exact ⟨state', hs, (perm_range_valid n state' hp).1, hp⟩
  · intro service move hsvc hseed
    have hsafe : SafeMove n move := by
      rcases hseed with ⟨rtl, rfl⟩ | rfl | rfl
      · exact chainReverse_safe rtl n hn
      · exact swapCity_safe n hn
      · exact rotateCity_safe n hn
    obtain ⟨state', service', hs, hp, -⟩ := hsafe state service hperm hsvc
    exact ⟨state', service', hs, (perm_range_valid n state' hp).1, hp⟩

/-- Witness for C2: the tour 0, 1, 2 with the samples 2, 1 and 1. -/
theorem seed_moves_keep_permutation_witness :
    ChainReverseMove.apply [0, 1, 2] 2 1 = some [0, 1, 2] ∧
    ChainReverseMove.apply [0, 1, 2] 1 2 = some [0, 1, 2] ∧
    SwapCityMove.apply [0, 1, 2] 2 1 = some [0, 2, 1] ∧
    RotateCityMove.apply [0, 1, 2] 2 1 1 = some [0, 1, 2] ∧
    (∃ state', ChainReverseMove.apply [0, 1, 2] 2 1 = some state' ∧ state'.length = 3 ∧
      state'.Perm (List.range 3)) ∧
    (∃ state', SwapCityMove.apply [0, 1, 2] 2 1 = some state' ∧ state'.length = 3 ∧
      state'.Perm (List.range 3)) ∧
    (∃ state', RotateCityMove.apply [0, 1, 2] 2 1 1 = some state' ∧ state'.length = 3 ∧
      state'.Perm (List.range 3)) ∧
    (∀ (service : MoveService) (move : Move), service.numCities = 3 →
      ((∃ rightToLeft, move = ChainReverseMove.propose rightToLeft) ∨
        move = SwapCityMove.propose ∨ move = RotateCityMove.propose) →
      ∃ state' service', move [0, 1, 2] service = some (state', service') ∧
        state'.length = 3 ∧ state'.Perm (List.range 3)) :=
  ⟨rfl, rfl, rfl, rfl,
    seed_moves_keep_permutation [0, 1, 2] 3 2 1 1 (by decide) (List.Perm.refl _) (by decide)
      (by decide) (by decide)⟩

theorem innerBody_defined (opt : Optimizer α) (inst : TSPInstance α) (expf : α → α) (n : Nat)
    (hb : inst.Built n) (hn : 1 ≤ n) (hne : 0 < opt.moves.length)
    (hmoves : ∀ move ∈ opt.moves, SafeMove n move) (hcycle : opt.notificationCycle ≠ 0)
    (st : RunState α) (hP : PermInv n st) (hcount : st.loopCounter < intMax) :
    ∃ st', opt.innerBody inst expf st = some st' ∧ PermInv n st' ∧
      st'.loopCounter = st.loopCounter + 1 := by
  have hidx : (st.g.moveDist opt.moves.length).1 < opt.moves.length := Nat.mod_lt _ hne
  have hmove : opt.moves[(st.g.moveDist opt.moves.length).1]? =
      some opt.moves[(st.g.moveDist opt.moves.length).1] := List.getElem?_eq_getElem hidx
  obtain ⟨proposal, service, hprop, hperm, hsvc⟩ :=
    hmoves _ (List.getElem_mem hidx) st.config.state st.service hP.1 hP.2
  obtain ⟨hlen, hvalid⟩ := perm_range_valid n proposal hperm
  have henergy := calcTourLength_eq inst n proposal hb hn hlen hvalid
  refine ⟨_, innerBody_eq opt inst expf st _ proposal service _ hmove hprop henergy hcycle
    hcount, ⟨?_, hsvc⟩, rfl⟩
  have ht := trackBest_state (accept expf st.config (st.g.moveDist opt.moves.length).2
    proposal (cyclicLength inst proposal)).1 proposal (cyclicLength inst proposal)
  have ha := accept_cases expf st.config (st.g.moveDist opt.moves.length).2 proposal
    (cyclicLength inst proposal)
  show (trackBest _ proposal (cyclicLength inst proposal)).state.Perm (List.range n)
  rw [ht.1]
  rcases accept_either expf st.config (st.g.moveDist opt.moves.length).2 proposal
    (cyclicLength inst proposal) with hc | hc
  · rw [hc.1]; exact hperm
  · rw [hc.1]; exact hP.1

theorem innerLoop_defined (opt : Optimizer α) (inst : TSPInstance α) (expf : α → α) (n : Nat)
    (hb : inst.Built n) (hn : 1 ≤ n) (hne : 0 < opt.moves.length)
    (hmoves : ∀ move ∈ opt.moves, SafeMove n move) (hcycle : opt.notificationCycle ≠ 0) :
    ∀ (remaining : Nat) (st : RunState α), PermInv n st →
      st.loopCounter + remaining ≤ intMax →
      ∃ st', opt.innerLoop inst expf remaining st = some st' ∧ PermInv n st' ∧
        st'.loopCounter = st.loopCounter + remaining := by
  intro remaining
  induction remaining with
  | zero => intro st hP _; exact ⟨st, rfl, hP, by simp⟩
  | succ r ih =>
    intro st hP hcount
    have hlt : st.loopCounter < intMax := by push_cast at hcount; omega
    obtain ⟨st1, hst1, hP1, hc1⟩ :=
      innerBody_defined opt inst expf n hb hn hne hmoves hcycle st hP hlt
    obtain ⟨st2, hst2, hP2, hc2⟩ := ih
      { st1 with config := { st1.config with inner := st1.config.inner + 1 } } hP1
      (by show st1.loopCounter + (r : Int) ≤ intMax; push_cast at hcount; omega)
    refine ⟨st2, by rw [Optimizer.innerLoop, hst1]; exact hst2, hP2, ?_⟩
    rw [hc2]
    show st1.loopCounter + (r : Int) = st.loopCounter + ((r + 1 : Nat) : Int)
    push_cast
    omega

theorem outerLoop_defined (opt : Optimizer α) (inst : TSPInstance α) (expf : α → α) (n : Nat)
    (schedule : CoolingSchedule α)
    (hb : inst.Built n) (hn : 1 ≤ n) (hne : 0 < opt.moves.length)
    (hmoves : ∀ move ∈ opt.moves, SafeMove n move) (hcycle : opt.notificationCycle ≠ 0) :
    ∀ (remaining : Nat) (st : RunState α), PermInv n st →
      st.loopCounter + ((remaining * opt.innerLoops.toNat : Nat) : Int) ≤ intMax →
      ∃ st', opt.outerLoop inst expf schedule remaining st = some st' ∧ PermInv n st' := by
  intro remaining
  induction remaining with
  | zero => intro st hP _; exact ⟨st, rfl, hP⟩
  | succ r ih =>
    intro st hP hcount
    have hsplit : (((r + 1) * opt.innerLoops.toNat : Nat) : Int) =
        ((r * opt.innerLoops.toNat : Nat) : Int) + (opt.innerLoops.toNat : Int) := by
      push_cast; ring
    rw [hsplit] at hcount
    have hr : (0 : Int) ≤ ((r * opt.innerLoops.toNat : Nat) : Int) := Int.natCast_nonneg _
    obtain ⟨st1, hst1, hP1, hc1⟩ := innerLoop_defined opt inst expf n hb hn hne hmoves hcycle
      opt.innerLoops.toNat
      { st with config := { { st.config with temp := schedule.nextTemp st.config } with
                            inner := 0 } } hP
      (by show st.loopCounter + (opt.innerLoops.toNat : Int) ≤ intMax; omega)
    obtain ⟨st2, hst2, hP2⟩ := ih
      { st1 with config := { st1.config with outer := st1.config.outer + 1 } } hP1
      (by
        show st1.loopCounter + ((r * opt.innerLoops.toNat : Nat) : Int) ≤ intMax
        rw [hc1]
        show st.loopCounter + (opt.innerLoops.toNat : Int) + _ ≤ intMax
        omega)
    exact ⟨st2, by rw [Optimizer.outerLoop]; simp only [hst1]; exact hst2, hP2⟩

theorem initialTour_perm {β : Type} (n : Nat) (rnd : Randomness β)
    (hshuffle : ∀ l, (rnd.shuffle l).Perm l) : (initialTour n rnd).Perm (List.range n) := by
  have h : List.range n = (List.range n).take 1 ++ (List.range n).drop 1 :=
    (List.take_append_drop 1 _).symm
  conv => rhs; rw [h]
  exact List.Perm.append_left _ (hshuffle _)

/-- A call of `optimize` completes when the instance is built for `n >= 2`
cities, every registered move is safe, a schedule is set, the notification
cycle is not zero, the total number of inner steps is an `int` and the shuffle
permutes its range. -/
theorem optimize_completes (opt : Optimizer α) (inst : TSPInstance α) (expf : α → α)
    (rnd : Randomness α) (n : Nat) (schedule : CoolingSchedule α)
    (hb : inst.Built n) (hn : 2 ≤ n) (hne : 0 < opt.moves.length)
    (hmoves : ∀ move ∈ opt.moves, SafeMove n move)
    (hsch : opt.coolingSchedule = some schedule) (hcycle : opt.notificationCycle ≠ 0)
    (hsteps : ((opt.outerLoops.toNat * opt.innerLoops.toNat : Nat) : Int) ≤ intMax)
    (hshuffle : ∀ l, (rnd.shuffle l).Perm l) :
    ∃ out, opt.optimize inst expf rnd = some out := by
  have hc : inst.cities.length = n := hb.1
  have hperm := initialTour_perm n rnd hshuffle
  obtain ⟨hlen, hvalid⟩ := perm_range_valid n _ hperm
  have henergy := calcTourLength_eq inst n _ hb (by omega) hlen hvalid
  have hP0 : PermInv n
      ({ config := { Optimizer.initConfig n rnd (cyclicLength inst (initialTour n rnd))
           schedule.initialTemp with outer := 0 },
         g := { ints := rnd.gInts, reals := rnd.gReals, calls := 0 },
         service := { numCities := n, generator := rnd.sampler, calls := 0 },
         loopCounter := 0, notified := [] } : RunState α) := ⟨hperm, rfl⟩
  obtain ⟨st', hst', -⟩ := outerLoop_defined opt inst expf n schedule hb (by omega) hne hmoves
    hcycle opt.outerLoops.toNat _ hP0
    (by show (0 : Int) + _ ≤ intMax; rw [zero_add]; exact hsteps)
  have hpre : n > 0 ∧ opt.moves.length > 0 := ⟨by omega, hne⟩
  refine ⟨opt.finish st', ?_⟩
  simp only [Optimizer.optimize, Optimizer.initState, hc, if_pos hpre, henergy, hsch,
    MoveService.create, hst']


theorem getD_reverse (tour : List Nat) (i : Nat) (h : i < tour.length) :
    tour.reverse.getD i 0 = tour.getD (tour.length - 1 - i) 0 := by
  simp [List.getD_eq_getElem?_getD, List.getElem?_reverse h]

theorem distD_symm_of_dist (inst : TSPInstance α) (n : Nat) (hb : inst.Built n)
    (hsym : ∀ i j, i < n → j < n → inst.dist i j = inst.dist j i)
    (i j : Nat) (hi : i < n) (hj : j < n) : inst.distD i j = inst.distD j i := by
  have h := hsym i j hi hj
  rw [TSPInstance.dist, TSPInstance.dist, matrix_get_of_built inst n i j hb hi hj,
    matrix_get_of_built inst n j i hb hj hi] at h
  exact Option.some.inj h

theorem cyclicLength_reverse (inst : TSPInstance α) (n : Nat) (tour : List Nat)
    (hb : inst.Built n) (hlen : tour.length = n) (hv : ValidIds n tour)
    (hsym : ∀ i j, i < n → j < n → inst.dist i j = inst.dist j i) :
    cyclicLength inst tour.reverse = cyclicLength inst tour := by
  unfold cyclicLength
  rw [List.length_reverse, hlen]
  rw [← Finset.sum_range_reflect
    (fun j => inst.distD (tour.getD j 0) (tour.getD ((j + 1) % n) 0)) n]
  rw [← sum_shift_mod (fun k => inst.distD (tour.getD (n - 1 - k) 0)
    (tour.getD ((n - 1 - k + 1) % n) 0)) n]
  apply Finset.sum_congr rfl
  intro i hi
  rw [Finset.mem_range] at hi
  have hpos : 0 < n := by omega
  have hk : (i + 1) % n < n := Nat.mod_lt _ hpos
  rw [getD_reverse tour i (by omega), getD_reverse tour _ (by omega), hlen]
  have hidx : (n - 1 - (i + 1) % n + 1) % n = n - 1 - i := by
    by_cases hlast : i + 1 = n
    · rw [hlast, Nat.mod_self]
      have : n - 1 - 0 + 1 = n := by omega
      rw [this, Nat.mod_self]
      omega
    · rw [Nat.mod_eq_of_lt (by omega : i + 1 < n)]
      rw [Nat.mod_eq_of_lt (by omega)]
      omega
  rw [hidx]
  exact distD_symm_of_dist inst n hb hsym _ _
    (getD_lt_of_valid n tour hv _ (by omega)) (getD_lt_of_valid n tour hv _ (by omega))

theorem validIds_reverse (n : Nat) (tour : List Nat) (hv : ValidIds n tour) :
    ValidIds n tour.reverse := by
  intro c hc
  exact hv c (List.mem_reverse.mp hc)

/-- C11. For an instance built for `n` cities whose distances are symmetric
(`dist(i,j) = dist(j,i)` for all city ids) and a tour of length `n` over city
ids below `n`, `TSPInstance::calcTourLength` gives the same value for the tour
and for its full reversal (and for `n >= 1` that value is the cyclic length). -/
theorem calcTourLength_reverse (inst : TSPInstance α) (n : Nat) (tour : List Nat)
    (hb : inst.Built n) (hlen : tour.length = n) (hv : ValidIds n tour)
    (hsym : ∀ i j, i < n → j < n → inst.dist i j = inst.dist j i) :
    inst.calcTourLength tour.reverse = inst.calcTourLength tour ∧
    (1 ≤ n → inst.calcTourLength tour = some (cyclicLength inst tour)) := by
  refine ⟨?_, fun hn => calcTourLength_eq inst n tour hb hn hlen hv⟩
  rcases Nat.eq_zero_or_pos n with h0 | hpos
  · subst h0
    have : tour = [] := List.length_eq_zero.mp hlen
    subst this
    simp
  · rw [calcTourLength_eq inst n tour hb hpos hlen hv,
      calcTourLength_eq inst n tour.reverse hb hpos (by rw [List.length_reverse, hlen])
        (validIds_reverse n tour hv),
      cyclicLength_reverse inst n tour hb hlen hv hsym]

theorem lineInstance_symm :
    ∀ i j, i < 4 → j < 4 → lineInstance.dist i j = lineInstance.dist j i := by
  intro i j hi hj
  interval_cases i <;> interval_cases j <;>
    simp [TSPInstance.dist, Matrix.get, lineInstance, intMax]

/-- Witness for C11: the tour 0, 2, 1, 3 on the four cities on a line, reversed. -/
theorem calcTourLength_reverse_witness :
    lineInstance.calcTourLength [0, 2, 1, 3].reverse =
      lineInstance.calcTourLength [0, 2, 1, 3] ∧
    (1 ≤ 4 → lineInstance.calcTourLength [0, 2, 1, 3] =
      some (cyclicLength lineInstance [0, 2, 1, 3])) :=
  calcTourLength_reverse lineInstance 4 [0, 2, 1, 3] lineInstance_built rfl
    (by simp [ValidIds]) lineInstance_symm

theorem geometric_tempAfter_succ (iTemp eTemp alpha : α) (config : Config α) (k : Nat) :
    (GeometricCoolingSchedule iTemp eTemp alpha).tempAfter config (k + 1) =
      max ((GeometricCoolingSchedule iTemp eTemp alpha).tempAfter config k * alpha) eTemp :=
  rfl

theorem geometric_floor_le (iTemp eTemp alpha : α) (config : Config α)
    (hi : eTemp ≤ iTemp) (k : Nat) :
    eTemp ≤ (GeometricCoolingSchedule iTemp eTemp alpha).tempAfter config k := by
  cases k with
  | zero => exact hi
  | succ k => rw [geometric_tempAfter_succ]; exact le_max_right _ _

theorem geometric_const_from (iTemp eTemp alpha : α) (config : Config α)
    (h1 : alpha < 1) (hf : 0 < eTemp) (k : Nat)
    (hk : (GeometricCoolingSchedule iTemp eTemp alpha).tempAfter config k = eTemp) :
    ∀ j, k ≤ j → (GeometricCoolingSchedule iTemp eTemp alpha).tempAfter config j = eTemp := by
  intro j hj
  induction j with
  | zero =>
    have : k = 0 := by omega
    subst this
    exact hk
  | succ j ih =>
    by_cases hjk : k = j + 1
    · subst hjk; exact hk
    · rw [geometric_tempAfter_succ, ih (by omega)]
      apply max_eq_right
      calc eTemp * alpha ≤ eTemp * 1 := by
            apply mul_le_mul_of_nonneg_left (le_of_lt h1) (le_of_lt hf)
        _ = eTemp := mul_one _

/-- C12. For a `GeometricCoolingSchedule` with `0 < alpha < 1` and
`initial >= floor > 0`, the temperatures obtained by applying `nextTemp`
repeatedly from `initial` are non-increasing, strictly decreasing at every step
whose input is above `floor`, never below `floor`, and stay at `floor` from the
first time they equal it. -/
theorem geometric_schedule_sequence (iTemp eTemp alpha : α) (config : Config α)
    (_h0 : 0 < alpha) (h1 : alpha < 1) (hf : 0 < eTemp) (hi : eTemp ≤ iTemp) (k : Nat) :
    (GeometricCoolingSchedule iTemp eTemp alpha).tempAfter config (k + 1) ≤
      (GeometricCoolingSchedule iTemp eTemp alpha).tempAfter config k ∧
    (eTemp < (GeometricCoolingSchedule iTemp eTemp alpha).tempAfter config k →
      (GeometricCoolingSchedule iTemp eTemp alpha).tempAfter config (k + 1) <
        (GeometricCoolingSchedule iTemp eTemp alpha).tempAfter config k) ∧
    eTemp ≤ (GeometricCoolingSchedule iTemp eTemp alpha).tempAfter config k ∧
    ((GeometricCoolingSchedule iTemp eTemp alpha).tempAfter config k = eTemp →
      ∀ j, k ≤ j → (GeometricCoolingSchedule iTemp eTemp alpha).tempAfter config j = eTemp) := by
  have hge := geometric_floor_le iTemp eTemp alpha config hi k
  have hpos : 0 < (GeometricCoolingSchedule iTemp eTemp alpha).tempAfter config k :=
    lt_of_lt_of_le hf hge
  have hlt : (GeometricCoolingSchedule iTemp eTemp alpha).tempAfter config k * alpha <
      (GeometricCoolingSchedule iTemp eTemp alpha).tempAfter config k := by
    calc (GeometricCoolingSchedule iTemp eTemp alpha).tempAfter config k * alpha
        < (GeometricCoolingSchedule iTemp eTemp alpha).tempAfter config k * 1 :=
          mul_lt_mul_of_pos_left h1 hpos
      _ = _ := mul_one _
  refine ⟨?_, ?_, hge, geometric_const_from iTemp eTemp alpha config h1 hf k⟩
  · rw [geometric_tempAfter_succ]
    exact max_le (le_of_lt hlt) hge
  · intro habove
    rw [geometric_tempAfter_succ]
    exact max_lt hlt habove

theorem lineSchedule_first : lineSchedule.tempAfter Config.init 1 = 285 / 2 := by
  norm_num [lineSchedule, CoolingSchedule.tempAfter, GeometricCoolingSchedule]

/-- Witness for C12: the schedule of main.cpp, initial 150, floor 0.01, alpha 0.95,
at its first step, from 150 to 142.5. -/
theorem geometric_schedule_sequence_witness :
    lineSchedule.tempAfter Config.init 1 = 285 / 2 ∧
    lineSchedule.tempAfter Config.init (0 + 1) ≤ lineSchedule.tempAfter Config.init 0 ∧
    ((1 / 100 : ℚ) < lineSchedule.tempAfter Config.init 0 →
      lineSchedule.tempAfter Config.init (0 + 1) < lineSchedule.tempAfter Config.init 0) ∧
    (1 / 100 : ℚ) ≤ lineSchedule.tempAfter Config.init 0 ∧
    (lineSchedule.tempAfter Config.init 0 = 1 / 100 →
      ∀ j, 0 ≤ j → lineSchedule.tempAfter Config.init j = 1 / 100) :=
  ⟨lineSchedule_first,
    geometric_schedule_sequence 150 (1 / 100) (95 / 100) Config.init (by norm_num)
      (by norm_num) (by norm_num) (by norm_num) 0⟩

theorem stepsFrom_loopCounter (opt : Optimizer α) (inst : TSPInstance α) (expf : α → α)
    (st0 st : RunState α) (k : Nat) (h : StepsFrom opt inst expf st0 k st) :
    st.loopCounter = st0.loopCounter + k := by
  induction h with
  | init => simp
  | counters k st t o i _ ih => exact ih
  | step k st st' _ hs ih =>
    obtain ⟨move, proposal, service, energy, hmove, hprop, hlen, hcycle, hcount⟩ :=
      innerBody_some opt inst expf st st' hs
    rw [innerBody_eq opt inst expf st move proposal service energy hmove hprop hlen hcycle
      hcount] at hs
    simp only [Option.some.injEq] at hs
    subst hs
    show st.loopCounter + 1 = st0.loopCounter + ((k + 1 : Nat) : Int)
    rw [ih]
    push_cast
    ring

theorem stepsFrom_visited (opt : Optimizer α) (inst : TSPInstance α) (expf : α → α)
    (st0 st : RunState α) (k : Nat) (h : StepsFrom opt inst expf st0 k st) :
    Visited opt inst expf st0 st := by
  induction h with
  | init => exact Visited.init
  | counters k st t o i _ ih => exact Visited.counters st t o i ih
  | step k st st' _ hs ih => exact Visited.step st st' ih hs

theorem innerLoop_stepsFrom (opt : Optimizer α) (inst : TSPInstance α) (expf : α → α)
    (st0 : RunState α) :
    ∀ (remaining k : Nat) (st st' : RunState α), StepsFrom opt inst expf st0 k st →
      opt.innerLoop inst expf remaining st = some st' →
      StepsFrom opt inst expf st0 (k + remaining) st' := by
  intro remaining
  induction remaining with
  | zero =>
    intro k st st' hP h
    simp only [Optimizer.innerLoop, Option.some.injEq] at h
    exact h ▸ hP
  | succ r ih =>
    intro k st st' hP h
    rw [Optimizer.innerLoop] at h
    split at h
    · exact absurd h (by simp)
    · rename_i st1 hst1
      have h1 := ih (k + 1) _ st' (StepsFrom.counters (k + 1) st1 st1.config.temp
        st1.config.outer (st1.config.inner + 1) (StepsFrom.step k st st1 hP hst1)) h
      have he : k + 1 + r = k + (r + 1) := by omega
      rw [he] at h1
      exact h1

theorem outerLoop_stepsFrom (opt : Optimizer α) (inst : TSPInstance α) (expf : α → α)
    (schedule : CoolingSchedule α) (st0 : RunState α) :
    ∀ (remaining k : Nat) (st st' : RunState α), StepsFrom opt inst expf st0 k st →
      opt.outerLoop inst expf schedule remaining st = some st' →
      StepsFrom opt inst expf st0 (k + remaining * opt.innerLoops.toNat) st' := by
  intro remaining
  induction remaining with
  | zero =>
    intro k st st' hP h
    simp only [Optimizer.outerLoop, Option.some.injEq] at h
    rw [Nat.zero_mul, Nat.add_zero]
    exact h ▸ hP
  | succ r ih =>
    intro k st st' hP h
    rw [Optimizer.outerLoop] at h
    simp only at h
    split at h
    · exact absurd h (by simp)
    · rename_i st1 hst1
      have h1 := innerLoop_stepsFrom opt inst expf st0 _ k _ st1
        (StepsFrom.counters k st (schedule.nextTemp st.config) st.config.outer 0 hP) hst1
      have h2 := ih _ _ st' (StepsFrom.counters _ st1 st1.config.temp (st1.config.outer + 1)
        st1.config.inner h1) h
      have he : k + opt.innerLoops.toNat + r * opt.innerLoops.toNat =
          k + (r + 1) * opt.innerLoops.toNat := by ring
      rw [he] at h2
      exact h2

/-- C13, as the code has it. Counting the inner steps of a call of
`Optimizer::optimize` globally, the inner step made after `k` earlier ones
(inner step number `k + 1`) pushes a snapshot to the observers exactly when `k`
is a multiple of `notificationCycle`: the counter is tested first and
incremented afterwards. The snapshot is the configuration at the end of the
step and is not flagged as terminated. A completed call has made
`outerLoops * innerLoops` inner steps. -/
theorem notification_schedule (opt : Optimizer α) (inst : TSPInstance α) (expf : α → α)
    (rnd : Randomness α) (st0 : RunState α) (schedule : CoolingSchedule α)
    (hinit : opt.initState inst rnd = some (st0, schedule))
    (k : Nat) (st st' : RunState α) (hreach : StepsFrom opt inst expf st0 k st)
    (hstep : opt.innerBody inst expf st = some st') :
    st.loopCounter = k ∧ st'.loopCounter = k + 1 ∧
    (opt.notificationCycle ∣ (k : Int) →
      st'.notified = st.notified ++ notifyAll opt.observers st'.config ∧
        st'.config.terminated = false) ∧
    (¬ opt.notificationCycle ∣ (k : Int) → st'.notified = st.notified) ∧
    (∀ out, opt.optimize inst expf rnd = some out →
      ∃ stEnd, StepsFrom opt inst expf st0
        (opt.outerLoops.toNat * opt.innerLoops.toNat) stEnd ∧ out = opt.finish stEnd) := by
  obtain ⟨energy0, -, -, -, hc0, -⟩ := initState_some opt inst rnd st0 schedule hinit
  obtain ⟨henergy, -, -⟩ := initState_energyInv opt inst rnd st0 schedule hinit
  have hk : st.loopCounter = k := by
    rw [stepsFrom_loopCounter opt inst expf st0 st k hreach, hc0, zero_add]
  have hinv : EnergyInv inst st' :=
    visited_inv opt inst expf st0 (EnergyInv inst) henergy (fun _ _ _ _ h => h)
      (energyInv_step opt inst expf) st'
      (Visited.step st st' (stepsFrom_visited opt inst expf st0 st k hreach) hstep)
  obtain ⟨move, proposal, service, energy, hmove, hprop, hlen, hcycle, hcount⟩ :=
    innerBody_some opt inst expf st st' hstep
  have heq := innerBody_eq opt inst expf st move proposal service energy hmove hprop hlen
    hcycle hcount
  rw [hstep, Option.some.injEq] at heq
  refine ⟨hk, ?_, ?_, ?_, ?_⟩
  · rw [heq]; show st.loopCounter + 1 = (k : Int) + 1; rw [hk]
  · intro hdvd
    have h0 : st.loopCounter.tmod opt.notificationCycle = 0 := by
      rw [hk]; exact Int.dvd_iff_tmod_eq_zero.mp hdvd
    refine ⟨?_, hinv.2.1⟩
    conv => lhs; rw [heq]
    simp only [if_pos h0]
    rw [heq]
  · intro hndvd
    have h0 : ¬ st.loopCounter.tmod opt.notificationCycle = 0 := by
      rw [hk]; exact fun h => hndvd (Int.dvd_iff_tmod_eq_zero.mpr h)
    rw [heq]
    simp only [if_neg h0]
  · intro out hout
    obtain ⟨st1, sch1, stEnd, hinit', hloop, rfl⟩ := optimize_some opt inst expf rnd out hout
    rw [hinit] at hinit'
    simp only [Option.some.injEq, Prod.mk.injEq] at hinit'
    obtain ⟨rfl, rfl⟩ := hinit'
    have h := outerLoop_stepsFrom opt inst expf schedule st0 _ 0 _ stEnd
      (StepsFrom.counters 0 st0 st0.config.temp 0 st0.config.inner StepsFrom.init) hloop
    rw [Nat.zero_add] at h
    exact ⟨stEnd, h, rfl⟩

theorem lineStep_first :
    ∃ st', lineOptimizer.innerBody lineInstance lineExp lineState = some st' ∧
      st'.notified = lineState.notified ++ notifyAll lineOptimizer.observers st'.config := by
  refine ⟨_, innerBody_eq lineOptimizer lineInstance lineExp lineState SwapCityMove.propose
    [0, 1, 2, 3] { numCities := 4, generator := fun k => k, calls := 2 } 12
    lineState_move lineState_proposal lineInstance_length_identity (by decide) (by decide), ?_⟩
  have h0 : lineState.loopCounter.tmod lineOptimizer.notificationCycle = 0 := by decide
  simp only [if_pos h0]

/-- Witness for C13: the first inner step of the run of `lineOptimizer` on the
four cities on a line. -/
theorem notification_schedule_witness :
    ∃ st', lineOptimizer.innerBody lineInstance lineExp lineState = some st' ∧
      lineState.loopCounter = (0 : Nat) ∧ st'.loopCounter = (0 : Nat) + 1 ∧
      (lineOptimizer.notificationCycle ∣ ((0 : Nat) : Int) →
        st'.notified = lineState.notified ++ notifyAll lineOptimizer.observers st'.config ∧
          st'.config.terminated = false) ∧
      (¬ lineOptimizer.notificationCycle ∣ ((0 : Nat) : Int) →
        st'.notified = lineState.notified) ∧
      (∀ out, lineOptimizer.optimize lineInstance lineExp lineRandomness = some out →
        ∃ stEnd, StepsFrom lineOptimizer lineInstance lineExp lineState
          (lineOptimizer.outerLoops.toNat * lineOptimizer.innerLoops.toNat) stEnd ∧
          out = lineOptimizer.finish stEnd) :=
  lineStep_first.elim fun st' h =>
    ⟨st', h.1, notification_schedule lineOptimizer lineInstance lineExp lineRandomness
      lineState lineSchedule lineInit 0 lineState st' StepsFrom.init h.1⟩

/-- C13 as stated fails: with `notificationCycle = 2`, inner step number 1 of the
run of `lineOptimizer` pushes a snapshot although 1 is not a multiple of 2. -/
theorem notification_first_step_pushes :
    ∃ st', lineOptimizer.innerBody lineInstance lineExp lineState = some st' ∧
      lineState.loopCounter = 0 ∧ st'.loopCounter = 1 ∧
      lineOptimizer.notificationCycle = 2 ∧ ¬ (2 : Int) ∣ 1 ∧
      st'.notified = lineState.notified ++ notifyAll lineOptimizer.observers st'.config ∧
      st'.notified ≠ lineState.notified := by
  obtain ⟨st', hstep, hpush⟩ := lineStep_first
  have hc : st'.loopCounter = 1 := by
    obtain ⟨move, proposal, service, energy, hmove, hprop, hlen, hcycle, hcount⟩ :=
      innerBody_some lineOptimizer lineInstance lineExp lineState st' hstep
    have heq := innerBody_eq lineOptimizer lineInstance lineExp lineState move proposal service
      energy hmove hprop hlen hcycle hcount
    rw [hstep, Option.some.injEq] at heq
    rw [heq]
    rfl
  refine ⟨st', hstep, rfl, hc, rfl, by decide, hpush, ?_⟩
  rw [hpush]
  simp [lineState, notifyAll, lineOptimizer]


theorem initState_none_of_no_city (opt : Optimizer α) (inst : TSPInstance α)
    (rnd : Randomness α) (h : inst.cities.length = 0 ∨ opt.moves = []) :
    opt.initState inst rnd = none := by
  have hpre : ¬ (inst.cities.length > 0 ∧ opt.moves.length > 0) := by
    rintro ⟨h1, h2⟩
    rcases h with h | h
    · omega
    · rw [h] at h2; exact absurd h2 (by simp)
  simp only [Optimizer.initState, if_neg hpre]

theorem innerLoop_zero (opt : Optimizer α) (inst : TSPInstance α) (expf : α → α)
    (st : RunState α) : opt.innerLoop inst expf 0 st = some st := rfl

theorem outerLoop_idle (opt : Optimizer α) (inst : TSPInstance α) (expf : α → α)
    (schedule : CoolingSchedule α) (hidle : opt.innerLoops.toNat = 0) :
    ∀ (remaining : Nat) (st : RunState α),
      ∃ t o i, opt.outerLoop inst expf schedule remaining st = some (st.withCounters t o i) := by
  intro remaining
  induction remaining with
  | zero => intro st; exact ⟨st.config.temp, st.config.outer, st.config.inner, rfl⟩
  | succ r ih =>
    intro st
    obtain ⟨t, o, i, h⟩ := ih (st.withCounters (schedule.nextTemp st.config)
      (st.config.outer + 1) 0)
    refine ⟨t, o, i, ?_⟩
    rw [Optimizer.outerLoop]
    simp only [hidle, innerLoop_zero]
    exact h

/-- C14, as the code has it. `Optimizer::optimize` fails before the run starts
when the instance has no city or no move is registered (the two assertions).
Non-positive loop counts are not checked: with `outerLoops <= 0` or
`innerLoops <= 0` a call whose initialisation succeeds makes no inner step (no
draw, no non-terminal snapshot, tour and best tour as initialised), pushes the
final snapshot and returns. -/
theorem optimize_preconditions (opt : Optimizer α) (inst : TSPInstance α) (expf : α → α)
    (rnd : Randomness α) :
    (inst.cities.length = 0 ∨ opt.moves = [] → opt.optimize inst expf rnd = none) ∧
    (opt.outerLoops ≤ 0 ∨ opt.innerLoops ≤ 0 →
      ∀ st0 schedule, opt.initState inst rnd = some (st0, schedule) →
        ∃ t o i, opt.optimize inst expf rnd = some (opt.finish (st0.withCounters t o i)) ∧
          (opt.finish (st0.withCounters t o i)).notified =
            notifyAll opt.observers (opt.finish (st0.withCounters t o i)).config ∧
          (opt.finish (st0.withCounters t o i)).result = st0.config.bestState) := by
  refine ⟨?_, ?_⟩
  · intro h
    simp only [Optimizer.optimize, initState_none_of_no_city opt inst rnd h]
  · intro h st0 schedule hinit
    obtain ⟨-, -, -, hnot, -⟩ := initState_some opt inst rnd st0 schedule hinit
    have hloop : ∃ t o i, opt.outerLoop inst expf schedule opt.outerLoops.toNat
        (st0.withCounters st0.config.temp 0 st0.config.inner) =
          some (st0.withCounters t o i) := by
      rcases h with h | h
      · have h0 : opt.outerLoops.toNat = 0 := Int.toNat_eq_zero.mpr h
        rw [h0]
        exact ⟨st0.config.temp, 0, st0.config.inner, rfl⟩
      · exact outerLoop_idle opt inst expf schedule (Int.toNat_eq_zero.mpr h) _ _
    obtain ⟨t, o, i, hl⟩ := hloop
    refine ⟨t, o, i, ?_, ?_, rfl⟩
    · rw [Optimizer.optimize, hinit]
      simp only
      rw [show ({ st0 with config := { st0.config with outer := 0 } } : RunState α) =
        st0.withCounters st0.config.temp 0 st0.config.inner from rfl, hl]
    · show st0.notified ++ _ = _
      rw [hnot, List.nil_append]
      rfl

theorem idleInit :
    idleOptimizer.initState lineInstance lineRandomness = some (lineState, lineSchedule) := by
  norm_num [Optimizer.initState, idleOptimizer, lineOptimizer, lineInstance, lineRandomness,
    lineState, TSPInstance.calcTourLength, TSPInstance.chainLoop, sizeSubOne, Matrix.get,
    intMax, MoveService.create, Optimizer.initConfig, Config.init, List.range,
    List.range.loop, lineSchedule, GeometricCoolingSchedule, List.replicate, swapLeading,
    initialTour]

/-- C14 as stated fails: with `outerLoops = 0` the call of `idleOptimizer` on the
four cities on a line does not fail; it returns the vector of zeros as `result`
and notifies its observer once. -/
theorem optimize_zero_loops_returns :
    idleOptimizer.outerLoops = 0 ∧
    ∃ out, idleOptimizer.optimize lineInstance lineExp lineRandomness = some out ∧
      out.result = [0, 0, 0, 0] ∧ out.notified = [(0, out.config)] ∧
      out.config.terminated = true := by
  refine ⟨rfl, idleOptimizer.finish
    (lineState.withCounters lineState.config.temp 0 lineState.config.inner), ?_, rfl, rfl, rfl⟩
  rw [Optimizer.optimize, idleInit]
  rfl

theorem chainReverse_apply_ascending (state : List Nat) (a b : Nat) (hab : a ≤ b)
    (hb : b ≤ state.length) :
    ChainReverseMove.apply state a b =
      some (state.take a ++ ((state.drop a).take (b - a)).reverse ++ state.drop b) := by
  rcases Nat.eq_or_lt_of_le hab with h | h
  · subst h
    have hs := split_three state a a (le_refl a)
    simp only [Nat.sub_self, List.take_zero, List.append_nil] at hs
    simp [ChainReverseMove.apply, stdReverse, ← hs]
  · have hn : ¬ b ≤ a := by omega
    simp [ChainReverseMove.apply, stdReverse, hn, hb]

theorem chainReverse_apply_same (state : List Nat) (a : Nat) :
    ChainReverseMove.apply state a a = some state :=
  chainReverse_apply_descending state a a (le_refl a)

/-- C16, at an input where it fails: on the tour 0, 1, 2, 3 the positions 1 and
3 passed to `std::reverse` as (1, 3) reverse the positions 1 and 2, while passed
as (3, 1) they leave the tour as it is. So, whichever way the two draws are
mapped to the arguments, the draws 1, 3 and the draws 3, 1 give different
tours. -/
theorem chainReverse_order_matters :
    ascendingService.draw.1 = 1 ∧ ascendingService.draw.2.draw.1 = 3 ∧
    reversedService.draw.1 = 3 ∧ reversedService.draw.2.draw.1 = 1 ∧
    ChainReverseMove.apply [0, 1, 2, 3] 1 3 = some [0, 2, 1, 3] ∧
    ChainReverseMove.apply [0, 1, 2, 3] 3 1 = some [0, 1, 2, 3] ∧
    ChainReverseMove.apply [0, 1, 2, 3] 1 3 ≠ ChainReverseMove.apply [0, 1, 2, 3] 3 1 ∧
    (ChainReverseMove.propose false [0, 1, 2, 3] ascendingService).map Prod.fst =
      some [0, 2, 1, 3] ∧
    (ChainReverseMove.propose false [0, 1, 2, 3] reversedService).map Prod.fst =
      some [0, 1, 2, 3] ∧
    (ChainReverseMove.propose true [0, 1, 2, 3] ascendingService).map Prod.fst =
      some [0, 1, 2, 3] ∧
    (ChainReverseMove.propose true [0, 1, 2, 3] reversedService).map Prod.fst =
      some [0, 2, 1, 3] := by
  refine ⟨rfl, rfl, rfl, rfl, rfl, rfl, by decide, rfl, rfl, rfl, rfl⟩

theorem rotated_outside (state : List Nat) (p0 p1 p2 : Nat) (h01 : p0 ≤ p1) (h12 : p1 ≤ p2)
    (h2 : p2 ≤ state.length) (i : Nat) (hi : i < p0 ∨ p2 ≤ i) :
    (state.take p0 ++ (state.drop p1).take (p2 - p1) ++ (state.drop p0).take (p1 - p0) ++
      state.drop p2)[i]? = state[i]? := by
  rcases hi with hi | hi
  · rw [List.append_assoc, List.append_assoc,
      List.getElem?_append_left (by rw [List.length_take]; omega)]
    rw [List.getElem?_take_of_lt hi]
  · have hlen : (state.take p0 ++ (state.drop p1).take (p2 - p1) ++
        (state.drop p0).take (p1 - p0)).length = p2 := by
      simp only [List.length_append, List.length_take, List.length_drop]
      omega
    rw [List.getElem?_append_right (by rw [hlen]; exact hi), hlen, List.getElem?_drop]
    congr 1
    omega

/-- With at most one city no seed move gets past its first call of `sample()`. -/
theorem seed_move_none (move : Move)
    (hseed : (∃ rightToLeft, move = ChainReverseMove.propose rightToLeft) ∨
      move = SwapCityMove.propose ∨ move = RotateCityMove.propose)
    (state : List Nat) (service : MoveService) (h : service.numCities ≤ 1) :
    move state service = none := by
  rcases hseed with ⟨rtl, rfl⟩ | rfl | rfl
  · simp only [ChainReverseMove.propose, sample_none service h]
  · simp only [SwapCityMove.propose, sample_none service h]
  · simp only [RotateCityMove.propose, sample_none service h]

theorem index_lt (n r c : Nat) (hr : r < n) (hc : c < n) : n * c + r < n * n := by
  calc n * c + r < n * c + n := by omega
    _ = n * (c + 1) := by ring
    _ ≤ n * n := Nat.mul_le_mul_left n hc

theorem index_inj (n r c i j : Nat) (hr : r < n) (hi : i < n)
    (h : n * c + r = n * j + i) : r = i ∧ c = j := by
  have hpos : 0 < n := by omega
  have h1 : (n * c + r) % n = r := by
    rw [Nat.mul_add_mod, Nat.mod_eq_of_lt hr]
  have h2 : (n * j + i) % n = i := by
    rw [Nat.mul_add_mod, Nat.mod_eq_of_lt hi]
  have hri : r = i := by rw [← h1, ← h2, h]
  subst hri
  have h3 : n * c = n * j := by omega
  exact ⟨rfl, Nat.eq_of_mul_eq_mul_left hpos h3⟩

theorem matrix_set_spec (M : Matrix α) (n i j : Nat) (v : α) (hs : MatShape n M)
    (hmax : ((n * n : Nat) : Int) ≤ intMax) (hi : i < n) (hj : j < n) :
    ∃ M', M.set i j v = some M' ∧ MatShape n M' ∧ M'.entry i j = v ∧
      ∀ r c, r < n → c < n → ¬ (r = i ∧ c = j) → M'.entry r c = M.entry r c := by
  obtain ⟨hm, hn, ha⟩ := hs
  have hidx : n * j + i < n * n := index_lt n i j hi hj
  have hint : ((n * j + i : Nat) : Int) ≤ intMax := by
    have : ((n * j + i : Nat) : Int) ≤ ((n * n : Nat) : Int) := by exact_mod_cast hidx.le
    exact le_trans this hmax
  have hlt : n * j + i < M.a.length := by rw [ha]; exact hidx
  refine ⟨{ M with a := M.a.set (n * j + i) v }, ?_, ⟨hm, hn, ?_⟩, ?_, ?_⟩
  · simp only [Matrix.set, hm, hn]
    rw [if_pos ⟨hi, hj, hint, hlt⟩]
  · show (M.a.set (n * j + i) v).length = n * n
    rw [List.length_set, ha]
  · show (M.a.set (n * j + i) v).getD (M.m * j + i) 0 = v
    rw [hm, List.getD_eq_getElem?_getD, List.getElem?_set_self hlt]
    rfl
  · intro r c hr _ hne
    show (M.a.set (n * j + i) v).getD (M.m * c + r) 0 = M.a.getD (M.m * c + r) 0
    have hidx' : n * j + i ≠ n * c + r := by
      intro h
      exact hne (index_inj n r c i j hr hi h.symm)
    rw [hm, List.getD_eq_getElem?_getD, List.getD_eq_getElem?_getD,
      List.getElem?_set_ne hidx']

theorem cities_getElem? (cities : List (α × α)) (i : Nat) (h : i < cities.length) :
    cities[i]? = some (cities.getD i (0, 0)) := by
  simp [List.getD_eq_getElem?_getD, List.getElem?_eq_getElem h]

theorem fillRow_spec (sqrtf : α → α) (cities : List (α × α)) (n i : Nat)
    (hn : cities.length = n) (hmax : ((n * n : Nat) : Int) ≤ intMax) (hi : i < n) :
    ∀ (remaining j : Nat) (M : Matrix α), MatShape n M → j + remaining = n →
      ∃ M', TSPInstance.fillRow sqrtf cities i remaining j M = some M' ∧ MatShape n M' ∧
        (∀ c, j ≤ c → c < n → M'.entry i c = pairDist sqrtf cities i c ∧
          M'.entry c i = pairDist sqrtf cities i c) ∧
        (∀ r c, r < n → c < n → ¬ (r = i ∧ j ≤ c) → ¬ (c = i ∧ j ≤ r) →
          M'.entry r c = M.entry r c) := by
  intro remaining
  induction remaining with
  | zero =>
    intro j M hs hj
    exact ⟨M, rfl, hs, fun c h1 h2 => absurd h2 (by omega), fun _ _ _ _ _ _ => rfl⟩
  | succ k ih =>
    intro j M hs hj
    have hjn : j < n := by omega
    obtain ⟨M1, hM1, hs1, he1, hf1⟩ :=
      matrix_set_spec M n i j (pairDist sqrtf cities i j) hs hmax hi hjn
    obtain ⟨M2, hM2, hs2, he2, hf2⟩ :=
      matrix_set_spec M1 n j i (pairDist sqrtf cities i j) hs1 hmax hjn hi
    obtain ⟨M', hM', hs', he', hf'⟩ := ih (j + 1) M2 hs2 (by omega)
    have hij : M2.entry i j = pairDist sqrtf cities i j := by
      by_cases h : i = j
      · subst h; exact he2
      · rw [hf2 i j hi hjn (fun hc => h hc.1), he1]
    refine ⟨M', ?_, hs', ?_, ?_⟩
    · rw [TSPInstance.fillRow, cities_getElem? cities i (by omega),
        cities_getElem? cities j (by omega)]
      simp only
      rw [show TSPInstance.cityDist sqrtf (cities.getD i (0, 0)) (cities.getD j (0, 0)) =
        pairDist sqrtf cities i j from rfl, hM1]
      simp only
      rw [hM2]
      exact hM'
    · intro c hc hcn
      by_cases hcj : c = j
      · subst hcj
        constructor
        · rw [hf' i c hi hcn (fun h => absurd h.2 (by omega))
            (fun h => absurd h.2 (by omega)), hij]
        · rw [hf' c i hcn hi (fun h => absurd h.2 (by omega))
            (fun h => absurd h.2 (by omega)), he2]
      · exact he' c (by omega) hcn
    · intro r c hr hc h1 h2
      rw [hf' r c hr hc (fun h => h1 ⟨h.1, by omega⟩) (fun h => h2 ⟨h.1, by omega⟩),
        hf2 r c hr hc (fun h => h2 ⟨h.2, by omega⟩),
        hf1 r c hr hc (fun h => h1 ⟨h.1, by omega⟩)]

theorem fillRows_spec (sqrtf : α → α) (cities : List (α × α)) (n : Nat)
    (hn : cities.length = n) (hmax : ((n * n : Nat) : Int) ≤ intMax) :
    ∀ (remaining i : Nat) (M : Matrix α), MatShape n M → i + remaining = n →
      ∃ M', TSPInstance.fillRows sqrtf cities n remaining i M = some M' ∧ MatShape n M' ∧
        (∀ r c, i ≤ r → r ≤ c → c < n → M'.entry r c = pairDist sqrtf cities r c ∧
          M'.entry c r = pairDist sqrtf cities r c) ∧
        (∀ r c, r < n → c < n → r < i ∨ c < i → M'.entry r c = M.entry r c) := by
  intro remaining
  induction remaining with
  | zero =>
    intro i M hs hi
    exact ⟨M, rfl, hs, fun r c h1 h2 h3 => absurd h3 (by omega), fun _ _ _ _ _ => rfl⟩
  | succ k ih =>
    intro i M hs hi
    have hin : i < n := by omega
    obtain ⟨M1, hM1, hs1, he1, hf1⟩ :=
      fillRow_spec sqrtf cities n i hn hmax hin (n - i) i M hs (by omega)
    obtain ⟨M', hM', hs', he', hf'⟩ := ih (i + 1) M1 hs1 (by omega)
    refine ⟨M', ?_, hs', ?_, ?_⟩
    · rw [TSPInstance.fillRows, hM1]
      exact hM'
    · intro r c hir hrc hcn
      by_cases hri : r = i
      · subst hri
        constructor
        · rw [hf' r c hin hcn (Or.inl (by omega))]
          exact (he1 c hrc hcn).1
        · rw [hf' c r hcn hin (Or.inr (by omega))]
          exact (he1 c hrc hcn).2
      · exact he' r c (by omega) hrc hcn
    · intro r c hr hc hlt
      rw [hf' r c hr hc (by omega),
        hf1 r c hr hc (fun h => by omega) (fun h => by omega)]

theorem matShape_create (n : Nat) : MatShape n (Matrix.create n n : Matrix α) :=
  ⟨rfl, rfl, by simp [Matrix.create]⟩

/-- What `calcDistanceMatrix` builds: the cities are kept, the matrix is the
`n x n` matrix with `dist(cities[r], cities[c])` at the positions `(r,c)` and
`(c,r)` for `r <= c`. -/
theorem calcDistanceMatrix_spec (sqrtf : α → α) (inst : TSPInstance α) (n : Nat)
    (hn : inst.cities.length = n) (hmax : ((n * n : Nat) : Int) ≤ intMax) :
    ∃ built, inst.calcDistanceMatrix sqrtf = some built ∧ built.cities = inst.cities ∧
      built.Built n ∧
      ∀ r c, r ≤ c → c < n → built.distD r c = pairDist sqrtf inst.cities r c ∧
        built.distD c r = pairDist sqrtf inst.cities r c := by
  obtain ⟨M, hM, hs, he, -⟩ :=
    fillRows_spec sqrtf inst.cities n hn hmax n 0 (Matrix.create n n) (matShape_create n)
      (by omega)
  refine ⟨{ inst with distances := M }, ?_, rfl, ⟨hn, hs.1, hs.2.1, hs.2.2, hmax⟩, ?_⟩
  · simp only [TSPInstance.calcDistanceMatrix, hn, if_pos hmax, hM]
  · intro r c hrc hc
    exact he r c (Nat.zero_le r) hrc hc

/-- With a move service for a single city an inner step with seed moves has no
defined outcome: the move it selects calls `sample()` on the empty range. -/
theorem innerBody_single_city (opt : Optimizer α) (inst : TSPInstance α) (expf : α → α)
    (hseed : SeedMoves opt) (st : RunState α) (h : st.service.numCities ≤ 1) :
    opt.innerBody inst expf st = none := by
  cases hr : opt.innerBody inst expf st with
  | none => rfl
  | some st' =>
    obtain ⟨move, proposal, service, energy, hmove, hprop, -⟩ :=
      innerBody_some opt inst expf st st' hr
    rw [seed_move_none move (hseed move (List.getElem?_mem hmove)) _ _ h] at hprop
    exact absurd hprop (by simp)

/-- On a single city a call of `optimize` with seed moves and positive loop
counts has no defined outcome: its first inner step samples from the empty
range. -/
theorem optimize_single_city (opt : Optimizer α) (inst : TSPInstance α) (expf : α → α)
    (rnd : Randomness α) (hn : inst.cities.length = 1) (hseed : SeedMoves opt)
    (ho : 0 < opt.outerLoops) (hi : 0 < opt.innerLoops) :
    opt.optimize inst expf rnd = none := by
  cases h : opt.initState inst rnd with
  | none => simp only [Optimizer.optimize, h]
  | some p =>
    obtain ⟨st0, schedule⟩ := p
    obtain ⟨-, -, -, -, -, -, -, -, hservice⟩ := initState_some opt inst rnd st0 schedule h
    have hsvc : st0.service.numCities ≤ 1 := by
      rw [hservice, hn]
      exact le_refl 1
    obtain ⟨k, hk⟩ : ∃ k, opt.outerLoops.toNat = k + 1 := ⟨opt.outerLoops.toNat - 1, by omega⟩
    obtain ⟨j, hj⟩ : ∃ j, opt.innerLoops.toNat = j + 1 := ⟨opt.innerLoops.toNat - 1, by omega⟩
    simp only [Optimizer.optimize, h, hk, Optimizer.outerLoop, hj, Optimizer.innerLoop]
    rw [innerBody_single_city opt inst expf hseed]
    exact hsvc

/-- C18, at an input where it fails: for the single city (0,0) the distance
matrix is built and `calcTourLength` of the tour `[0]` is 0. `MoveService(1)`
holds `uniform_int_distribution<int>(1, 0)`, whose range is empty, so
`sample()` has no defined value; the initialisation of `optimize` still
completes, but with seed moves and positive loop counts the first inner step
calls `propose`, which samples: the call of `optimize` has no defined
outcome. -/
theorem single_city_run_undefined :
    ∃ inst : TSPInstance ℝ,
      (TSPInstance.ofCities [((0 : ℝ), (0 : ℝ))]).calcDistanceMatrix Real.sqrt = some inst ∧
      inst.cities.length = 1 ∧
      inst.calcTourLength [0] = some 0 ∧
      (∀ generator, (MoveService.create inst.cities.length generator).sample = none) ∧
      (∀ (opt : Optimizer ℝ) (rnd : Randomness ℝ) (schedule : CoolingSchedule ℝ),
        0 < opt.moves.length → opt.coolingSchedule = some schedule →
        (∀ l, (rnd.shuffle l).Perm l) →
        ∃ st0, opt.initState inst rnd = some (st0, schedule) ∧
          st0.config.state = [0] ∧ st0.service.sample = none) ∧
      ∀ (opt : Optimizer ℝ) (expf : ℝ → ℝ) (rnd : Randomness ℝ),
        SeedMoves opt → 0 < opt.outerLoops → 0 < opt.innerLoops →
        opt.optimize inst expf rnd = none := by
  obtain ⟨inst, hbuild, hc, hb, hd⟩ := calcDistanceMatrix_spec Real.sqrt
    (TSPInstance.ofCities [((0 : ℝ), (0 : ℝ))]) 1 rfl (by decide)
  have hlen : inst.cities.length = 1 := hb.1
  have hzero : inst.calcTourLength [0] = some 0 := by
    rw [calcTourLength_eq inst 1 [0] hb (le_refl 1) rfl (by intro c hc; simp at hc; omega)]
    have h00 := (hd 0 0 (le_refl 0) (by decide)).1
    simp [cyclicLength, h00, pairDist, TSPInstance.cityDist, TSPInstance.ofCities]
  refine ⟨inst, hbuild, hlen, hzero, ?_, ?_, fun opt expf rnd hseed ho hi =>
    optimize_single_city opt inst expf rnd hlen hseed ho hi⟩
  · intro generator
    rw [hlen]
    rfl
  · intro opt rnd schedule hne hsch hshuffle
    have hpre : 1 > 0 ∧ opt.moves.length > 0 := ⟨by decide, hne⟩
    have htour : initialTour 1 rnd = [0] := by
      have hs : rnd.shuffle ((List.range 1).drop 1) = [] :=
        List.Perm.eq_nil (hshuffle _)
      rw [initialTour, hs]
      rfl
    refine ⟨{ config := Optimizer.initConfig 1 rnd 0 schedule.initialTemp,
              g := { ints := rnd.gInts, reals := rnd.gReals, calls := 0 },
              service := MoveService.create 1 rnd.sampler,
              loopCounter := 0, notified := [] }, ?_, htour, rfl⟩
    simp only [Optimizer.initState, hlen, if_pos hpre, htour, hzero, hsch]

theorem pairDist_symm (sqrtf : α → α) (cities : List (α × α)) (r c : Nat) :
    pairDist sqrtf cities r c = pairDist sqrtf cities c r := by
  simp only [pairDist, TSPInstance.cityDist]
  congr 1
  ring

theorem pairDist_self (sqrtf : α → α) (cities : List (α × α)) (r : Nat) :
    pairDist sqrtf cities r r = sqrtf 0 := by
  simp only [pairDist, TSPInstance.cityDist]
  congr 1
  ring

/-- C21. For an instance with `n` cities whose matrix size `n*n` is an `int`,
`TSPInstance::calcDistanceMatrix` returns, the cities are kept, distinct index
pairs `(i, j)` with `i, j < n` are mapped to distinct positions `m*j+i` of the
storage, and for all `i, j < n` the entry `dist(i, j)` is the distance computed
for the cities `i` and `j`; hence `dist(i, j) = dist(j, i)`, and with
`sqrt 0 = 0` also `dist(i, i) = 0`. -/
theorem calcDistanceMatrix_entries (sqrtf : α → α) (inst : TSPInstance α) (n : Nat)
    (hn : inst.cities.length = n) (hmax : ((n * n : Nat) : Int) ≤ intMax)
    (h0 : sqrtf 0 = 0) :
    ∃ built, inst.calcDistanceMatrix sqrtf = some built ∧ built.cities = inst.cities ∧
      (∀ i j i' j', i < n → j < n → i' < n → j' < n →
        built.distances.m * j + i = built.distances.m * j' + i' → i = i' ∧ j = j') ∧
      ∀ i j, i < n → j < n →
        built.dist i j = some (pairDist sqrtf inst.cities i j) ∧
        built.dist i j = built.dist j i ∧
        built.dist i i = some 0 := by
  obtain ⟨built, hbuilt, hc, hb, hd⟩ := calcDistanceMatrix_spec sqrtf inst n hn hmax
  have hentry : ∀ i j, i < n → j < n →
      built.dist i j = some (pairDist sqrtf inst.cities i j) := by
    intro i j hi hj
    rw [TSPInstance.dist, matrix_get_of_built built n i j hb hi hj]
    rcases Nat.le_total i j with hij | hij
    · rw [(hd i j hij hj).1]
    · rw [(hd j i hij hi).2, pairDist_symm]
  refine ⟨built, hbuilt, hc, ?_, ?_⟩
  · intro i j i' j' hi _ hi' _ heq
    rw [hb.2.1] at heq
    exact index_inj n i j i' j' hi hi' heq
  · intro i j hi hj
    refine ⟨hentry i j hi hj, ?_, ?_⟩
    · rw [hentry i j hi hj, hentry j i hj hi, pairDist_symm]
    · rw [hentry i i hi hi, pairDist_self, h0]

/-- Witness for C21: the unit square with the real square root. -/
theorem calcDistanceMatrix_entries_witness :
    Real.sqrt 0 = 0 ∧
    ∃ built, (TSPInstance.ofCities (unitSquare : List (ℝ × ℝ))).calcDistanceMatrix Real.sqrt =
        some built ∧
      built.cities = unitSquare ∧
      (∀ i j i' j', i < 4 → j < 4 → i' < 4 → j' < 4 →
        built.distances.m * j + i = built.distances.m * j' + i' → i = i' ∧ j = j') ∧
      ∀ i j, i < 4 → j < 4 →
        built.dist i j = some (pairDist Real.sqrt unitSquare i j) ∧
        built.dist i j = built.dist j i ∧
        built.dist i i = some 0 :=
  ⟨Real.sqrt_zero, calcDistanceMatrix_entries Real.sqrt (TSPInstance.ofCities unitSquare) 4 rfl
    (by decide) Real.sqrt_zero⟩

theorem accept_outer (expf : α → α) (config : Config α) (g : Generator α)
    (proposal : List Nat) (energy : α) :
    (accept expf config g proposal energy).1.outer = config.outer := by
  unfold accept
  simp only [Generator.uniformDist]
  split_ifs <;> rfl

theorem trackBest_outer (config : Config α) (proposal : List Nat) (energy : α) :
    (trackBest config proposal energy).outer = config.outer := by
  unfold trackBest
  split_ifs <;> rfl

/-- An inner step changes neither the temperature nor the outer counter. -/
theorem innerBody_temp (opt : Optimizer α) (inst : TSPInstance α) (expf : α → α)
    (st st' : RunState α) (h : opt.innerBody inst expf st = some st') :
    st'.config.temp = st.config.temp ∧ st'.config.outer = st.config.outer := by
  obtain ⟨proposal, energy, g, -, hcfg, -⟩ := innerBody_effect opt inst expf st st' h
  rw [hcfg]
  exact ⟨(trackBest_state _ _ _).2.2.2.trans (accept_bestEnergy _ _ _ _ _).2.2.2,
    (trackBest_outer _ _ _).trans (accept_outer _ _ _ _ _)⟩

/-- One application of `max(temp * alpha, floor)` to `max(initial * alpha^m, floor)`. -/
theorem geometric_step (iTemp eTemp alpha : α) (m : Nat) (h0 : 0 < alpha) (h1 : alpha < 1)
    (hf : 0 < eTemp) :
    max (max (iTemp * alpha ^ m) eTemp * alpha) eTemp = max (iTemp * alpha ^ (m + 1)) eTemp := by
  rw [max_mul_of_nonneg _ _ (le_of_lt h0), max_assoc]
  have h : eTemp * alpha ≤ eTemp := by nlinarith
  rw [max_eq_right h, pow_succ, mul_assoc]

/-- The first `k` outer steps of the outer loop are the outer loop with `k`
iterations: the loop with `k + r` iterations continues from its state. -/
theorem outerLoop_add (opt : Optimizer α) (inst : TSPInstance α) (expf : α → α)
    (schedule : CoolingSchedule α) (r : Nat) :
    ∀ (k : Nat) (st : RunState α),
      opt.outerLoop inst expf schedule (k + r) st =
        (opt.outerLoop inst expf schedule k st).bind (opt.outerLoop inst expf schedule r) := by
  intro k
  induction k with
  | zero => intro st; rw [Nat.zero_add]; rfl
  | succ k ih =>
    intro st
    rw [show k + 1 + r = (k + r) + 1 by omega, Optimizer.outerLoop, Optimizer.outerLoop]
    simp only
    split
    · rfl
    · exact ih _

/-- One outer step: the temperature is set to `nextTemp`, the inner loop runs
from `inner = 0`, and the outer counter is incremented. -/
theorem outerLoop_one (opt : Optimizer α) (inst : TSPInstance α) (expf : α → α)
    (schedule : CoolingSchedule α) (st : RunState α) :
    opt.outerLoop inst expf schedule 1 st =
      (opt.innerLoop inst expf opt.innerLoops.toNat
        (st.withCounters (schedule.nextTemp st.config) st.config.outer 0)).map
        fun st' => st'.withCounters st'.config.temp (st'.config.outer + 1) st'.config.inner := by
  simp only [Optimizer.outerLoop]
  split
  · rename_i h
    have h' : opt.innerLoop inst expf opt.innerLoops.toNat
        (st.withCounters (schedule.nextTemp st.config) st.config.outer 0) = none := h
    rw [h']
    rfl
  · rename_i st' h
    have h' : opt.innerLoop inst expf opt.innerLoops.toNat
        (st.withCounters (schedule.nextTemp st.config) st.config.outer 0) = some st' := h
    rw [h']
    rfl

/-- The snapshots pushed by an inner loop are snapshots of configurations with
the temperature and the outer counter of the state the loop started in. -/
theorem innerLoop_snapshots (opt : Optimizer α) (inst : TSPInstance α) (expf : α → α)
    (G : Config α → Prop)
    (hG : ∀ c c' : Config α, c'.temp = c.temp → c'.outer = c.outer → G c → G c') :
    ∀ (remaining : Nat) (st st' : RunState α), G st.config →
      (∀ x ∈ st.notified, G x.2) →
      opt.innerLoop inst expf remaining st = some st' →
      (∀ x ∈ st'.notified, G x.2) ∧ st'.config.temp = st.config.temp ∧
        st'.config.outer = st.config.outer := by
  intro remaining
  induction remaining with
  | zero =>
    intro st st' _ hall h
    simp only [Optimizer.innerLoop, Option.some.injEq] at h
    subst h
    exact ⟨hall, rfl, rfl⟩
  | succ r ih =>
    intro st st' hg hall h
    rw [Optimizer.innerLoop] at h
    split at h
    · exact absurd h (by simp)
    · rename_i st1 hst1
      obtain ⟨h1t, h1o⟩ := innerBody_temp opt inst expf st st1 hst1
      have hg1 : G st1.config := hG st.config st1.config h1t h1o hg
      have hall1 : ∀ x ∈ st1.notified, G x.2 := by
        obtain ⟨proposal, energy, g, -, -, hn⟩ := innerBody_effect opt inst expf st st1 hst1
        rcases hn with hn | hn
        · rw [hn]; exact hall
        · rw [hn]
          intro x hx
          rcases List.mem_append.mp hx with hx | hx
          · exact hall x hx
          · rw [mem_notifyAll _ _ x hx]; exact hg1
      obtain ⟨h2, h2t, h2o⟩ := ih
        { st1 with config := { st1.config with inner := st1.config.inner + 1 } } st'
        (hG st1.config _ rfl rfl hg1) hall1 h
      exact ⟨h2, h2t.trans h1t, h2o.trans h1o⟩

/-- With a geometric schedule, from a state at the head of outer step `m` with
the temperature `max(initial * alpha^m, floor)`: after `k` more outer steps the
outer counter is `m + k`, the temperature is `max(initial * alpha^(m+k), floor)`,
and every snapshot pushed on the way carries the temperature
`max(initial * alpha^(outer+1), floor)` for its own outer counter. -/
theorem outerLoop_geometric (opt : Optimizer α) (inst : TSPInstance α) (expf : α → α)
    (iTemp eTemp alpha : α) (h0 : 0 < alpha) (h1 : alpha < 1) (hf : 0 < eTemp) :
    ∀ (k m : Nat) (st stk : RunState α), st.config.temp = max (iTemp * alpha ^ m) eTemp →
      st.config.outer = m →
      (∀ x ∈ st.notified, 0 ≤ x.2.outer ∧
        x.2.temp = max (iTemp * alpha ^ (x.2.outer.toNat + 1)) eTemp) →
      opt.outerLoop inst expf (GeometricCoolingSchedule iTemp eTemp alpha) k st = some stk →
      stk.config.temp = max (iTemp * alpha ^ (m + k)) eTemp ∧
      stk.config.outer = ((m + k : Nat) : Int) ∧
      ∀ x ∈ stk.notified, 0 ≤ x.2.outer ∧
        x.2.temp = max (iTemp * alpha ^ (x.2.outer.toNat + 1)) eTemp := by
  intro k
  induction k with
  | zero =>
    intro m st stk ht ho hall h
    simp only [Optimizer.outerLoop, Option.some.injEq] at h
    subst h
    exact ⟨ht, by rw [ho]; rfl, hall⟩
  | succ k ih =>
    intro m st stk ht ho hall h
    rw [Optimizer.outerLoop] at h
    simp only at h
    split at h
    · exact absurd h (by simp)
    · rename_i st1 hst1
      have hhead : max (st.config.temp * alpha) eTemp = max (iTemp * alpha ^ (m + 1)) eTemp := by
        rw [ht, geometric_step iTemp eTemp alpha m h0 h1 hf]
      obtain ⟨hall1, h1t, h1o⟩ := innerLoop_snapshots opt inst expf
        (fun c => 0 ≤ c.outer ∧ c.temp = max (iTemp * alpha ^ (c.outer.toNat + 1)) eTemp)
        (fun c c' htc hoc hc => ⟨by rw [hoc]; exact hc.1, by rw [htc, hoc]; exact hc.2⟩)
        opt.innerLoops.toNat
        { st with config := { { st.config with temp := max (st.config.temp * alpha) eTemp } with
                              inner := 0 } } st1
        (by
          show 0 ≤ st.config.outer ∧
            max (st.config.temp * alpha) eTemp =
              max (iTemp * alpha ^ (st.config.outer.toNat + 1)) eTemp
          rw [ho, hhead]
          exact ⟨Int.natCast_nonneg m, by rw [Int.toNat_ofNat]⟩)
        hall hst1
      have ht1 : st1.config.temp = max (iTemp * alpha ^ (m + 1)) eTemp := by
        rw [h1t]; exact hhead
      have ho1 : st1.config.outer + 1 = ((m + 1 : Nat) : Int) := by
        rw [h1o]
        show st.config.outer + 1 = _
        rw [ho]
        push_cast
        rfl
      obtain ⟨h2t, h2o, h2⟩ := ih (m + 1)
        { st1 with config := { st1.config with outer := st1.config.outer + 1 } } stk ht1 ho1
        hall1 h
      refine ⟨by rw [h2t, show m + 1 + k = m + (k + 1) by omega], ?_, h2⟩
      rw [h2o, show m + 1 + k = m + (k + 1) by omega]

/-- C22. For a call of `Optimizer::optimize` with a `GeometricCoolingSchedule`
with `0 < alpha < 1` and `initial >= floor > 0`: `config.temp` is `initial`
after the initialisation, and no inner step changes the temperature or the
outer counter, so the snapshot pushed at the end of an inner step carries the
temperature and the outer counter that were in effect during the step. In every
call that completes, every non-terminal snapshot pushed during outer step `k`
(`config.outer = k`) carries the temperature `max(initial * alpha^(k+1), floor)`;
in particular outer step 0 runs at `max(initial * alpha, floor)`, which is below
`initial` when `floor < initial`. After the loops the temperature is
`max(initial * alpha^outerLoops, floor)`. -/
theorem geometric_outer_step_temperature (opt : Optimizer α) (inst : TSPInstance α)
    (expf : α → α) (rnd : Randomness α) (iTemp eTemp alpha : α)
    (h0 : 0 < alpha) (h1 : alpha < 1) (hf : 0 < eTemp) (hi : eTemp ≤ iTemp)
    (hsch : opt.coolingSchedule = some (GeometricCoolingSchedule iTemp eTemp alpha)) :
    (∀ st0 schedule, opt.initState inst rnd = some (st0, schedule) →
      st0.config.temp = iTemp) ∧
    (∀ st st', opt.innerBody inst expf st = some st' →
      st'.config.temp = st.config.temp ∧ st'.config.outer = st.config.outer) ∧
    (∀ st0 schedule, opt.initState inst rnd = some (st0, schedule) →
      ∀ (k : Nat) (stk : RunState α),
        opt.outerLoop inst expf schedule k
          (st0.withCounters st0.config.temp 0 st0.config.inner) = some stk →
        stk.config.outer = k ∧
        opt.outerLoop inst expf schedule (k + 1)
            (st0.withCounters st0.config.temp 0 st0.config.inner) =
          (opt.innerLoop inst expf opt.innerLoops.toNat
            (stk.withCounters (max (iTemp * alpha ^ (k + 1)) eTemp) k 0)).map
            fun st => st.withCounters st.config.temp (st.config.outer + 1) st.config.inner) ∧
    ∀ out, opt.optimize inst expf rnd = some out →
      (∀ x ∈ out.notified, x.2.terminated = false →
        0 ≤ x.2.outer ∧
        x.2.temp = max (iTemp * alpha ^ (x.2.outer.toNat + 1)) eTemp ∧
        (x.2.outer = 0 → x.2.temp = max (iTemp * alpha) eTemp ∧
          (eTemp < iTemp → x.2.temp < iTemp))) ∧
      out.config.temp = max (iTemp * alpha ^ opt.outerLoops.toNat) eTemp := by
  have hinit0 : ∀ st0 schedule, opt.initState inst rnd = some (st0, schedule) →
      schedule = GeometricCoolingSchedule iTemp eTemp alpha ∧ st0.config.temp = iTemp := by
    intro st0 schedule hinit
    obtain ⟨energy, -, hcfg, -, -, -, -, hsch', -⟩ :=
      initState_some opt inst rnd st0 schedule hinit
    rw [hsch] at hsch'
    injection hsch' with hsch'
    subst hsch'
    exact ⟨rfl, by rw [hcfg]; rfl⟩
  have hstart : ∀ st0 : RunState α, st0.config.temp = iTemp →
      (st0.withCounters st0.config.temp 0 st0.config.inner).config.temp =
        max (iTemp * alpha ^ 0) eTemp := by
    intro st0 ht0
    show st0.config.temp = _
    rw [ht0, pow_zero, mul_one, max_eq_left hi]
  refine ⟨fun st0 schedule hinit => (hinit0 st0 schedule hinit).2,
    innerBody_temp opt inst expf, ?_, ?_⟩
  · intro st0 schedule hinit k stk hstk
    obtain ⟨rfl, ht0⟩ := hinit0 st0 schedule hinit
    obtain ⟨-, -, -, hnot, -⟩ := initState_some opt inst rnd st0 _ hinit
    obtain ⟨htk, hok, -⟩ := outerLoop_geometric opt inst expf iTemp eTemp alpha h0 h1 hf
      k 0 _ stk (hstart st0 ht0) rfl
      (by
        show ∀ x ∈ st0.notified, _
        rw [hnot]
        intro x hx
        exact absurd hx (List.not_mem_nil x))
      hstk
    rw [Nat.zero_add] at htk hok
    have hnext : max (stk.config.temp * alpha) eTemp = max (iTemp * alpha ^ (k + 1)) eTemp := by
      rw [htk, geometric_step iTemp eTemp alpha k h0 h1 hf]
    refine ⟨hok, ?_⟩
    rw [outerLoop_add opt inst expf _ 1 k, hstk]
    show opt.outerLoop inst expf (GeometricCoolingSchedule iTemp eTemp alpha) 1 stk = _
    rw [outerLoop_one, ← hnext, ← hok]
    rfl
  intro out hout
  obtain ⟨st0, schedule, st', hinit, hloop, rfl⟩ := optimize_some opt inst expf rnd out hout
  obtain ⟨rfl, ht0⟩ := hinit0 st0 schedule hinit
  obtain ⟨-, -, -, hnot, -⟩ := initState_some opt inst rnd st0 _ hinit
  obtain ⟨htk, -, hall⟩ := outerLoop_geometric opt inst expf iTemp eTemp alpha h0 h1 hf
    opt.outerLoops.toNat 0 _ st' (hstart st0 ht0) rfl
    (by
      show ∀ x ∈ st0.notified, _
      rw [hnot]
      intro x hx
      exact absurd hx (List.not_mem_nil x))
    hloop
  rw [Nat.zero_add] at htk
  refine ⟨?_, htk⟩
  intro x hx hterm
  have hx' : x ∈ st'.notified := by
    rcases List.mem_append.mp hx with hx | hx
    · exact hx
    · rw [mem_notifyAll _ _ x hx] at hterm
      exact absurd hterm (by simp [Optimizer.finish])
  obtain ⟨hx0, hxt⟩ := hall x hx'
  refine ⟨hx0, hxt, ?_⟩
  intro hk
  rw [hxt, hk]
  have hpow : iTemp * alpha ^ ((0 : Int).toNat + 1) = iTemp * alpha := by
    rw [Int.toNat_zero, zero_add, pow_one]
  rw [hpow]
  refine ⟨rfl, fun hlt => ?_⟩
  have hpos : 0 < iTemp := lt_trans hf hlt
  have : iTemp * alpha < iTemp := by nlinarith
  exact max_lt this hlt

/-- The snapshots of the run of `lineOptimizer` on the four cities on a line:
observer, outer counter, temperature and `terminated`. -/
theorem lineRun_snapshots :
    (lineOptimizer.optimize lineInstance lineExp lineRandomness).map
      (fun out => out.notified.map fun x => (x.1, x.2.outer, x.2.temp, x.2.terminated)) =
      some [(0, 0, 285 / 2, false), (0, 1, 1083 / 8, false), (0, 2, 1083 / 8, true)] := by
  rw [Optimizer.optimize, lineInit]
  norm_num [Optimizer.outerLoop, Optimizer.innerLoop, Optimizer.innerBody, lineOptimizer,
    lineInstance, lineRandomness, lineState, TSPInstance.calcTourLength,
    TSPInstance.chainLoop, sizeSubOne, Matrix.get, intMax, lineSchedule, GeometricCoolingSchedule,
    accept, acceptanceBound, trackBest, Generator.moveDist, Generator.uniformDist,
    SwapCityMove.propose, RotateCityMove.propose, ChainReverseMove.propose, SwapCityMove.apply,
    RotateCityMove.apply, ChainReverseMove.apply, stdSwap, stdRotate, stdReverse,
    stdSort, MoveService.sample, MoveService.draw, lineExp, notifyAll, Optimizer.finish,
    List.range, List.range.loop, (show Int.tmod 3 2 = 1 from rfl),
    (show Int.tmod 1 2 = 1 from rfl)]

/-- Witness for C22: the run of `lineOptimizer` on the four cities on a line,
with the schedule 150, 0.01, 0.95 of main.cpp: the snapshot of outer step 0
carries the temperature 142.5 and that of outer step 1 the temperature
135.375. -/
theorem geometric_outer_step_temperature_witness :
    lineOptimizer.coolingSchedule = some (GeometricCoolingSchedule 150 (1 / 100) (95 / 100)) ∧
    (lineOptimizer.optimize lineInstance lineExp lineRandomness).map
      (fun out => out.notified.map fun x => (x.1, x.2.outer, x.2.temp, x.2.terminated)) =
      some [(0, 0, 285 / 2, false), (0, 1, 1083 / 8, false), (0, 2, 1083 / 8, true)] ∧
    (∀ st0 schedule, lineOptimizer.initState lineInstance lineRandomness =
        some (st0, schedule) → st0.config.temp = 150) ∧
    (∀ st st', lineOptimizer.innerBody lineInstance lineExp st = some st' →
      st'.config.temp = st.config.temp ∧ st'.config.outer = st.config.outer) ∧
    (∀ st0 schedule, lineOptimizer.initState lineInstance lineRandomness =
        some (st0, schedule) →
      ∀ (k : Nat) (stk : RunState ℚ),
        lineOptimizer.outerLoop lineInstance lineExp schedule k
          (st0.withCounters st0.config.temp 0 st0.config.inner) = some stk →
        stk.config.outer = k ∧
        lineOptimizer.outerLoop lineInstance lineExp schedule (k + 1)
            (st0.withCounters st0.config.temp 0 st0.config.inner) =
          (lineOptimizer.innerLoop lineInstance lineExp lineOptimizer.innerLoops.toNat
            (stk.withCounters (max (150 * (95 / 100) ^ (k + 1)) (1 / 100)) k 0)).map
            fun st => st.withCounters st.config.temp (st.config.outer + 1) st.config.inner) ∧
    ∀ out, lineOptimizer.optimize lineInstance lineExp lineRandomness = some out →
      (∀ x ∈ out.notified, x.2.terminated = false →
        0 ≤ x.2.outer ∧
        x.2.temp = max (150 * (95 / 100) ^ (x.2.outer.toNat + 1)) (1 / 100) ∧
        (x.2.outer = 0 → x.2.temp = max (150 * (95 / 100)) (1 / 100) ∧
          ((1 / 100 : ℚ) < 150 → x.2.temp < 150))) ∧
      out.config.temp = max (150 * (95 / 100) ^ lineOptimizer.outerLoops.toNat) (1 / 100) :=
  ⟨rfl, lineRun_snapshots,
    geometric_outer_step_temperature lineOptimizer lineInstance lineExp lineRandomness
      150 (1 / 100) (95 / 100) (by norm_num) (by norm_num) (by norm_num) (by norm_num) rfl⟩
theorem reversed_outside (state : List Nat) (a b : Nat) (hab : a ≤ b) (hb : b ≤ state.length)
    (i : Nat) (hi : i < a ∨ b ≤ i) :
    (state.take a ++ ((state.drop a).take (b - a)).reverse ++ state.drop b)[i]? =
      state[i]? := by
  rcases hi with hi | hi
  · rw [List.append_assoc, List.getElem?_append_left (by rw [List.length_take]; omega),
      List.getElem?_take_of_lt hi]
  · have hlen : (state.take a ++ ((state.drop a).take (b - a)).reverse).length = b := by
      simp only [List.length_append, List.length_take, List.length_drop, List.length_reverse]
      omega
    rw [List.getElem?_append_right (by rw [hlen]; exact hi), hlen, List.getElem?_drop]
    congr 1
    omega

/-- `ChainReverseMove::propose` changes no position outside `[a, b)`. -/
theorem chainReverse_apply_outside (state state' : List Nat) (a b : Nat)
    (h : ChainReverseMove.apply state a b = some state') (i : Nat) (hi : i < a ∨ b ≤ i) :
    state'[i]? = state[i]? := by
  unfold ChainReverseMove.apply stdReverse at h
  split at h
  · injection h with h
    subst h
    rfl
  · split at h
    · rename_i hlt hb
      injection h with h
      subst h
      exact reversed_outside state a b (by omega) hb i hi
    · exact absurd h (by simp)

/-- For all samples in `[1, n-1]`, in either order, `ChainReverseMove::propose`
is defined and leaves the positions 0 and `n-1` unchanged. -/
theorem chainReverse_ends (state : List Nat) (n a b : Nat) (hn : 2 ≤ n)
    (hlen : state.length = n) (ha : 1 ≤ a ∧ a ≤ n - 1) (hb : 1 ≤ b ∧ b ≤ n - 1) :
    ∃ state', ChainReverseMove.apply state a b = some state' ∧
      state'[0]? = state[0]? ∧ state'[n - 1]? = state[n - 1]? := by
  obtain ⟨state', hs⟩ := chainReverse_apply_isSome state a b (by omega)
  exact ⟨state', hs, chainReverse_apply_outside state state' a b hs 0 (Or.inl (by omega)),
    chainReverse_apply_outside state state' a b hs (n - 1) (Or.inr hb.2)⟩

/-- For all samples in `[1, n-1]`, `RotateCityMove::propose` is defined and
leaves the positions 0 and `n-1` unchanged. -/
theorem rotateCity_ends (state : List Nat) (n s0 s1 s2 : Nat) (hn : 2 ≤ n)
    (hlen : state.length = n) (h0 : 1 ≤ s0 ∧ s0 ≤ n - 1) (h1 : 1 ≤ s1 ∧ s1 ≤ n - 1)
    (h2 : 1 ≤ s2 ∧ s2 ≤ n - 1) :
    ∃ state', RotateCityMove.apply state s0 s1 s2 = some state' ∧
      state'[0]? = state[0]? ∧ state'[n - 1]? = state[n - 1]? := by
  obtain ⟨p0, p1, p2, hsort, h01, h12, hp⟩ := stdSort_three s0 s1 s2
  have hmem : ∀ p ∈ [p0, p1, p2], 1 ≤ p ∧ p ≤ n - 1 := by
    intro p hp'
    have := hp.subset hp'
    simp only [List.mem_cons, List.mem_singleton, List.not_mem_nil, or_false] at this
    rcases this with h | h | h <;> subst h <;> assumption
  have hp0 := hmem p0 (by simp)
  have hp2 := hmem p2 (by simp)
  have hle : p2 ≤ state.length := by omega
  refine ⟨_, ?_, rotated_outside state p0 p1 p2 h01 h12 hle 0 (Or.inl (by omega)),
    rotated_outside state p0 p1 p2 h01 h12 hle (n - 1) (Or.inr hp2.2)⟩
  simp only [RotateCityMove.apply, hsort, stdRotate]
  rw [if_pos ⟨h01, h12, hle⟩]

/-- With a sample equal to `n-1`, `SwapCityMove::propose` puts the city of the
other sampled position at position `n-1`. -/
theorem swapCity_last (state : List Nat) (n a : Nat) (hn : 2 ≤ n) (hlen : state.length = n)
    (ha : a ≤ n - 1) :
    ∃ state', SwapCityMove.apply state a (n - 1) = some state' ∧
      state'[n - 1]? = state[a]? := by
  have h1 : a < state.length := by omega
  have h2 : n - 1 < state.length := by omega
  refine ⟨(state.set a state[n - 1]).set (n - 1) state[a], ?_, ?_⟩
  · simp [SwapCityMove.apply, stdSwap, List.getElem?_eq_getElem h1,
      List.getElem?_eq_getElem h2]
  · rw [List.getElem?_set_self (by rw [List.length_set]; exact h2),
      List.getElem?_eq_getElem h1]

/-- C23. For every tour of length `n >= 2` and all sampled positions in
`[1, n-1]`, in either order: `ChainReverseMove::propose` and
`RotateCityMove::propose` are defined and leave the cities at the positions 0
and `n-1` unchanged, as functions of the sampled positions and as methods
drawing from any move service for `n` cities; `SwapCityMove::propose` with the
samples `a` and `n-1` puts the city of position `a` at position `n-1`, so it
changes position `n-1` whenever the two cities differ. -/
theorem chain_rotate_keep_ends (state : List Nat) (n a b c : Nat) (hn : 2 ≤ n)
    (hlen : state.length = n) (ha : 1 ≤ a ∧ a ≤ n - 1) (hb : 1 ≤ b ∧ b ≤ n - 1)
    (hc : 1 ≤ c ∧ c ≤ n - 1) :
    (∃ state', ChainReverseMove.apply state a b = some state' ∧
      state'[0]? = state[0]? ∧ state'[n - 1]? = state[n - 1]?) ∧
    (∃ state', RotateCityMove.apply state a b c = some state' ∧
      state'[0]? = state[0]? ∧ state'[n - 1]? = state[n - 1]?) ∧
    (∀ (rightToLeft : Bool) (service : MoveService), service.numCities = n →
      ∃ state' service', ChainReverseMove.propose rightToLeft state service =
          some (state', service') ∧
        state'[0]? = state[0]? ∧ state'[n - 1]? = state[n - 1]?) ∧
    (∀ (service : MoveService), service.numCities = n →
      ∃ state' service', RotateCityMove.propose state service = some (state', service') ∧
        state'[0]? = state[0]? ∧ state'[n - 1]? = state[n - 1]?) ∧
    (∃ state', SwapCityMove.apply state a (n - 1) = some state' ∧
      state'[n - 1]? = state[a]?) := by
  refine ⟨chainReverse_ends state n a b hn hlen ha hb,
    rotateCity_ends state n a b c hn hlen ha hb hc, ?_, ?_,
    swapCity_last state n a hn hlen ha.2⟩
  · intro rtl service hsvc
    obtain ⟨h1, h2, -⟩ := draw_range service (by omega)
    obtain ⟨h3, h4, -⟩ := draw_range service.draw.2 (show 2 ≤ service.numCities by omega)
    rw [draw_numCities] at h4
    rw [hsvc] at h2 h4
    rw [chainReverse_propose_apply rtl state service (by omega)]
    cases rtl with
    | false =>
      obtain ⟨state', hs, he⟩ := chainReverse_ends state n service.draw.1
        service.draw.2.draw.1 hn hlen ⟨h1, h2⟩ ⟨h3, h4⟩
      exact ⟨state', service.draw.2.draw.2, by simp [hs], he⟩
    | true =>
      obtain ⟨state', hs, he⟩ := chainReverse_ends state n service.draw.2.draw.1
        service.draw.1 hn hlen ⟨h3, h4⟩ ⟨h1, h2⟩
      exact ⟨state', service.draw.2.draw.2, by simp [hs], he⟩
  · intro service hsvc
    obtain ⟨h1, h2, -⟩ := draw_range service (by omega)
    obtain ⟨h3, h4, -⟩ := draw_range service.draw.2 (show 2 ≤ service.numCities by omega)
    obtain ⟨h5, h6, -⟩ := draw_range service.draw.2.draw.2
      (show 2 ≤ service.numCities by omega)
    simp only [draw_numCities] at h4 h6
    rw [hsvc] at h2 h4 h6
    rw [rotateCity_propose_apply state service (by omega)]
    obtain ⟨state', hs, he⟩ := rotateCity_ends state n service.draw.1
      service.draw.2.draw.1 service.draw.2.draw.2.draw.1 hn hlen ⟨h1, h2⟩ ⟨h3, h4⟩ ⟨h5, h6⟩
    exact ⟨state', service.draw.2.draw.2.draw.2, by simp [hs], he⟩

/-- Witness for C23: the tour 0, 1, 2, 3 with the samples 3, 1 and 2; the swap
of the positions 3 and `n-1 = 3` is the identity, the swap of the positions 1
and 3 changes position 3. -/
theorem chain_rotate_keep_ends_witness :
    ChainReverseMove.apply [0, 1, 2, 3] 3 1 = some [0, 1, 2, 3] ∧
    ChainReverseMove.apply [0, 1, 2, 3] 1 3 = some [0, 2, 1, 3] ∧
    RotateCityMove.apply [0, 1, 2, 3] 3 1 2 = some [0, 2, 1, 3] ∧
    SwapCityMove.apply [0, 1, 2, 3] 1 3 = some [0, 3, 2, 1] ∧
    (∃ state', ChainReverseMove.apply [0, 1, 2, 3] 3 1 = some state' ∧
      state'[0]? = [0, 1, 2, 3][0]? ∧ state'[4 - 1]? = [0, 1, 2, 3][4 - 1]?) ∧
    (∃ state', RotateCityMove.apply [0, 1, 2, 3] 3 1 2 = some state' ∧
      state'[0]? = [0, 1, 2, 3][0]? ∧ state'[4 - 1]? = [0, 1, 2, 3][4 - 1]?) ∧
    (∀ (rightToLeft : Bool) (service : MoveService), service.numCities = 4 →
      ∃ state' service', ChainReverseMove.propose rightToLeft [0, 1, 2, 3] service =
          some (state', service') ∧
        state'[0]? = [0, 1, 2, 3][0]? ∧ state'[4 - 1]? = [0, 1, 2, 3][4 - 1]?) ∧
    (∀ (service : MoveService), service.numCities = 4 →
      ∃ state' service', RotateCityMove.propose [0, 1, 2, 3] service =
          some (state', service') ∧
        state'[0]? = [0, 1, 2, 3][0]? ∧ state'[4 - 1]? = [0, 1, 2, 3][4 - 1]?) ∧
    (∃ state', SwapCityMove.apply [0, 1, 2, 3] 3 (4 - 1) = some state' ∧
      state'[4 - 1]? = [0, 1, 2, 3][3]?) :=
  ⟨rfl, rfl, rfl, rfl,
    chain_rotate_keep_ends [0, 1, 2, 3] 4 3 1 2 (by decide) rfl (by decide) (by decide)
      (by decide)⟩

end TSP
